import Mathlib

/-!
# telegram-audio-to-text: the voice-message pipeline of `cmd/main.go`

A shallow embedding of the program in `cmd/main.go`:

* the update dispatcher (`main`),
* the message pipeline (`handleAudioUpdate`, `handlerErr`),
* the two transcription clients (`getAudioText`, `getAudioTranslation`),
* the transcoder (`convertFile`).

Go strings are modelled as `String`.  Calls that leave the process (Telegram,
HTTP, the file system, the ffmpeg engine) take their outcome from an `Env`
record and are written to a trace of `Event`s, so that every statement about
"which calls were made, in which order, with which arguments" is a statement
about that trace.  `log.Fatalf` ends the run in `Outcome.fatal`.
-/

namespace TelegramAudioToText

/-! ## Telegram data model (the fields of `tgbotapi.Update` the program reads) -/

/-- The `tgbotapi.Voice` attachment: only `FileID` is read. -/
structure Voice where
  FileID : String
  deriving DecidableEq, Repr

/-- The `tgbotapi.Chat` of a message: only `ID` (an `int64`) is read. -/
structure Chat where
  ID : Int
  deriving DecidableEq, Repr

/-- The `tgbotapi.Message`: `Chat` and `Voice` are pointers, `nil` is `none`. -/
structure Message where
  Chat : Option Chat
  Voice : Option Voice
  deriving DecidableEq, Repr

/-- The `tgbotapi.Update`: `Message` is a pointer, `nil` is `none`. -/
structure Update where
  UpdateID : Int
  Message : Option Message
  deriving DecidableEq, Repr

/-! ## `encoding/json`: the part of `json.Unmarshal` the clients use

The response body is decoded into `struct { Text string json:"text" }`.
`json.Unmarshal` first checks that the whole input is one well-formed JSON
value (`checkValid`), then walks the value and stores into the struct. -/

/-- A parsed JSON value.  Object members keep their order and duplicates;
numbers keep their literal. -/
inductive JSON where
  | null
  | bool (b : Bool)
  | num (lit : String)
  | str (s : String)
  | arr (xs : List JSON)
  | obj (kvs : List (String × JSON))

/-- The scanner's `isSpace`: space, tab, carriage return, line feed. -/
def isSpace (c : Char) : Bool :=
  c = ' ' || c = '\t' || c = '\r' || c = '\n'

/-- Drop leading JSON white space. -/
def skipSpace : List Char → List Char
  | [] => []
  | c :: cs => if isSpace c then skipSpace cs else c :: cs

/-- Value of one hexadecimal digit (either case), as in `getu4`. -/
def hexVal (c : Char) : Option Nat :=
  if '0' ≤ c ∧ c ≤ '9' then some (c.toNat - '0'.toNat)
  else if 'a' ≤ c ∧ c ≤ 'f' then some (c.toNat - 'a'.toNat + 10)
  else if 'A' ≤ c ∧ c ≤ 'F' then some (c.toNat - 'A'.toNat + 10)
  else none

/-- The four hex digits after a backslash-u, as a number (`getu4`). -/
def getu4 : List Char → Option (Nat × List Char)
  | a :: b :: c :: d :: rest =>
    match hexVal a, hexVal b, hexVal c, hexVal d with
    | some x, some y, some z, some w => some (((x * 16 + y) * 16 + z) * 16 + w, rest)
    | _, _, _, _ => none
  | _ => none

/-- The Unicode replacement character U+FFFD. -/
def replacementChar : Char := Char.ofNat 0xFFFD

/-- The test `utf16.IsSurrogate`. -/
def isSurrogate (r : Nat) : Bool := 0xD800 ≤ r && r < 0xE000

/-- The function `utf16.DecodeRune`: the code point of a surrogate pair, if it is one. -/
def decodeSurrogates (r1 r2 : Nat) : Option Char :=
  if 0xD800 ≤ r1 ∧ r1 < 0xDC00 ∧ 0xDC00 ≤ r2 ∧ r2 < 0xE000 then
    some (Char.ofNat ((r1 - 0xD800) * 0x400 + (r2 - 0xDC00) + 0x10000))
  else none

/-- The characters of a string literal after its opening quote: scans to the
closing quote, decoding escapes as `unquote` does (a lone surrogate escape
becomes U+FFFD).  `acc` holds the decoded characters, newest first. -/
def scanString : Nat → List Char → List Char → Option (String × List Char)
  | 0, _, _ => none
  | _ + 1, [], _ => none
  | fuel + 1, c :: cs, acc =>
    if c = '"' then some (String.mk acc.reverse, cs)
    else if c = '\\' then
      match cs with
      | [] => none
      | e :: rest =>
        if e = 'u' then
          match getu4 rest with
          | none => none
          | some (r, rest1) =>
            if isSurrogate r then
              match rest1 with
              | '\\' :: 'u' :: rest2 =>
                match getu4 rest2 with
                | some (r2, rest3) =>
                  match decodeSurrogates r r2 with
                  | some ch => scanString fuel rest3 (ch :: acc)
                  | none => scanString fuel rest1 (replacementChar :: acc)
                | none => scanString fuel rest1 (replacementChar :: acc)
              | _ => scanString fuel rest1 (replacementChar :: acc)
            else scanString fuel rest1 (Char.ofNat r :: acc)
        else if e = '"' then scanString fuel rest ('"' :: acc)
        else if e = '\\' then scanString fuel rest ('\\' :: acc)
        else if e = '/' then scanString fuel rest ('/' :: acc)
        else if e = 'b' then scanString fuel rest (Char.ofNat 8 :: acc)
        else if e = 'f' then scanString fuel rest (Char.ofNat 12 :: acc)
        else if e = 'n' then scanString fuel rest ('\n' :: acc)
        else if e = 'r' then scanString fuel rest ('\r' :: acc)
        else if e = 't' then scanString fuel rest ('\t' :: acc)
        else none
    else if c.toNat < 0x20 then none
    else scanString fuel cs (c :: acc)

/-- Split off the longest run of decimal digits. -/
def takeDigits : List Char → List Char × List Char
  | [] => ([], [])
  | c :: cs =>
    if c.isDigit then ((takeDigits cs).1.cons c, (takeDigits cs).2) else ([], c :: cs)

/-- A number literal: `-? (0 | [1-9][0-9]*) (. [0-9]+)? ([eE] [+-]? [0-9]+)?`. -/
def scanNumber (cs : List Char) : Option (String × List Char) :=
  let (sign, cs1) :=
    match cs with
    | '-' :: r => (['-'], r)
    | r => ([], r)
  let intPart : Option (List Char × List Char) :=
    match cs1 with
    | '0' :: r => some (['0'], r)
    | c :: r => if c.isDigit then some ((takeDigits (c :: r)).1, (takeDigits (c :: r)).2) else none
    | [] => none
  match intPart with
  | none => none
  | some (ds, cs2) =>
    let frac : Option (List Char × List Char) :=
      match cs2 with
      | '.' :: r =>
        if (takeDigits r).1.isEmpty then none
        else some ('.' :: (takeDigits r).1, (takeDigits r).2)
      | r => some ([], r)
    match frac with
    | none => none
    | some (fs, cs3) =>
      let expo : Option (List Char × List Char) :=
        match cs3 with
        | e :: r =>
          if e = 'e' ∨ e = 'E' then
            let (sg, r1) :=
              match r with
              | '+' :: t => (['+'], t)
              | '-' :: t => (['-'], t)
              | t => ([], t)
            if (takeDigits r1).1.isEmpty then none
            else some (e :: sg ++ (takeDigits r1).1, (takeDigits r1).2)
          else some ([], e :: r)
        | [] => some ([], [])
      match expo with
      | none => none
      | some (es, cs4) => some (String.mk (sign ++ ds ++ fs ++ es), cs4)

/-- The scanner's `maxNestingDepth`: deeper nesting is a syntax error. -/
def maxNestingDepth : Nat := 10000

mutual
/-- One JSON value, after optional white space; returns the unread rest.
`depth` counts the objects and arrays already open. -/
def scanValue : Nat → Nat → List Char → Option (JSON × List Char)
  | 0, _, _ => none
  | fuel + 1, depth, cs =>
    match skipSpace cs with
    | [] => none
    | c :: rest =>
      if c = '\x7b' then
        if depth + 1 > maxNestingDepth then none
        else
          match skipSpace rest with
          | d :: rest1 =>
            if d = '\x7d' then some (JSON.obj [], rest1)
            else
              match scanMembers fuel (depth + 1) (d :: rest1) with
              | some (kvs, rest2) => some (JSON.obj kvs, rest2)
              | none => none
          | [] => none
      else if c = '[' then
        if depth + 1 > maxNestingDepth then none
        else
          match skipSpace rest with
          | d :: rest1 =>
            if d = ']' then some (JSON.arr [], rest1)
            else
              match scanElements fuel (depth + 1) (d :: rest1) with
              | some (xs, rest2) => some (JSON.arr xs, rest2)
              | none => none
          | [] => none
      else if c = '"' then
        match scanString (rest.length + 1) rest [] with
        | some (s, rest1) => some (JSON.str s, rest1)
        | none => none
      else if c = 't' then
        match rest with
        | 'r' :: 'u' :: 'e' :: rest1 => some (JSON.bool true, rest1)
        | _ => none
      else if c = 'f' then
        match rest with
        | 'a' :: 'l' :: 's' :: 'e' :: rest1 => some (JSON.bool false, rest1)
        | _ => none
      else if c = 'n' then
        match rest with
        | 'u' :: 'l' :: 'l' :: rest1 => some (JSON.null, rest1)
        | _ => none
      else
        match scanNumber (c :: rest) with
        | some (lit, rest1) => some (JSON.num lit, rest1)
        | none => none
/-- The elements of a non-empty array up to and including the closing bracket. -/
def scanElements : Nat → Nat → List Char → Option (List JSON × List Char)
  | 0, _, _ => none
  | fuel + 1, depth, cs =>
    match scanValue fuel depth cs with
    | none => none
    | some (v, rest) =>
      match skipSpace rest with
      | d :: rest1 =>
        if d = ']' then some ([v], rest1)
        else if d = ',' then
          match scanElements fuel depth rest1 with
          | some (vs, rest2) => some (v :: vs, rest2)
          | none => none
        else none
      | [] => none
/-- The members of a non-empty object up to and including the closing brace. -/
def scanMembers : Nat → Nat → List Char → Option (List (String × JSON) × List Char)
  | 0, _, _ => none
  | fuel + 1, depth, cs =>
    match skipSpace cs with
    | q :: rest =>
      if q = '"' then
        match scanString (rest.length + 1) rest [] with
        | none => none
        | some (key, rest1) =>
          match skipSpace rest1 with
          | colon :: rest2 =>
            if colon = ':' then
              match scanValue fuel depth rest2 with
              | none => none
              | some (v, rest3) =>
                match skipSpace rest3 with
                | d :: rest4 =>
                  if d = '\x7d' then some ([(key, v)], rest4)
                  else if d = ',' then
                    match scanMembers fuel depth rest4 with
                    | some (kvs, rest5) => some ((key, v) :: kvs, rest5)
                    | none => none
                  else none
                | [] => none
            else none
          | [] => none
      else none
    | [] => none
end

/-- The whole input as one JSON value with optional white space around it
(what `checkValid` accepts), parsed.  Every call of the scanner either reads
a character or follows a call that did, so twice the length is enough fuel. -/
def parseJSON (data : String) : Option JSON :=
  match scanValue (2 * data.data.length + 2) 0 data.data with
  | some (v, rest) => if (skipSpace rest).isEmpty then some v else none
  | none => none


/-- A Go `error` value, as far as the program can tell errors apart. -/
inductive GoError where
  /-- An error handed back by a library or system call, by its message. -/
  | ext (msg : String)
  /-- An error made by `fmt.Errorf` in this program, by its message. -/
  | errorf (msg : String)
  /-- A `*json.SyntaxError`: the input is not one well-formed JSON value. -/
  | jsonSyntax
  /-- A `*json.UnmarshalTypeError`: a JSON value of kind `value` cannot be stored. -/
  | jsonType (value : String)
  deriving DecidableEq, Repr

/-- The `Value` text of an `UnmarshalTypeError` for a JSON value. -/
def JSON.kind : JSON → String
  | .null => "null"
  | .bool _ => "bool"
  | .num _ => "number"
  | .str _ => "string"
  | .arr _ => "array"
  | .obj _ => "object"

/-- The anonymous `struct { Text string json:"text" }` both clients decode into. -/
structure TextResponse where
  Text : String
  deriving DecidableEq, Repr

/-- An object key selects the field tagged `text`: `json.Unmarshal` matches
incoming keys to struct fields "preferring an exact match but also accepting a
case-insensitive match".  For the name `text` the folding is plain ASCII. -/
def matchesTextField (key : String) : Bool :=
  key.data.map Char.toLower = ['t', 'e', 'x', 't']

/-- Store one JSON value into the `string` field `Text`: a string is stored,
`null` leaves the field as it is, anything else is a type error (the decoder
remembers the first error and goes on). -/
def storeText (st : TextResponse × Option GoError) (v : JSON) :
    TextResponse × Option GoError :=
  match v with
  | .str s => (TextResponse.mk s, st.2)
  | .null => st
  | other =>
    match st.2 with
    | some e => (st.1, some e)
    | none => (st.1, some (.jsonType other.kind))

/-- The decoder's walk over the members of an object, in input order: a member
whose key selects `Text` is stored, every other member is skipped. -/
def decodeMembers (kvs : List (String × JSON)) (st : TextResponse × Option GoError) :
    TextResponse × Option GoError :=
  kvs.foldl (fun acc kv => if matchesTextField kv.1 then storeText acc kv.2 else acc) st

/-- The call `json.Unmarshal(data, &r)` for `r` of type `TextResponse`: the new
value of `r` and the returned error. -/
def jsonUnmarshal (data : String) (r : TextResponse) : TextResponse × Option GoError :=
  match parseJSON data with
  | none => (r, some .jsonSyntax)
  | some (.obj kvs) => decodeMembers kvs (r, none)
  | some .null => (r, none)
  | some other => (r, some (.jsonType other.kind))

/-! ## Streams, HTTP, files and the engine -/

/-- An `io.ReadCloser`, by what reading it to the end yields: the bytes read
and the error that ended the stream (`none` for a clean EOF). -/
structure ReadCloser where
  data : String
  err : Option String
  deriving DecidableEq, Repr

/-- An `*http.Response`: the fields the program reads. -/
structure Response where
  StatusCode : Int
  Body : ReadCloser
  deriving DecidableEq, Repr

/-- One part of a multipart form: `CreateFormField(name)` has no file name,
`CreateFormFile(name, filename)` has one. -/
structure Part where
  name : String
  filename : Option String
  data : String
  deriving DecidableEq, Repr

/-- An `*http.Request` with a multipart body. -/
structure Request where
  method : String
  url : String
  contentType : String
  authorization : String
  form : List Part
  deriving DecidableEq, Repr

/-- The `tgbotapi.File` returned by `GetFile`. -/
structure File where
  FileID : String
  FilePath : String
  deriving DecidableEq, Repr

/-- One run of the engine: `ffmpeg.Input(input).Output(output, kwargs)` with
standard output captured.  `inputData` is the content of the input file at the
time of the run. -/
structure FFmpegCall where
  input : String
  inputData : Option String
  output : String
  kwargs : List (String × String)
  deriving DecidableEq, Repr

/-- The calls that leave the program, in the order they are made; `goHandle`
is the `go handleAudioUpdate(bot, update)` statement of `main`. -/
inductive Event where
  | goHandle (update : Update)
  | getFile (fileID : String)
  | logPrintf (line : String)
  | httpGet (url : String)
  | ffmpegRun (call : FFmpegCall)
  | httpDo (req : Request)
  | send (chatID : Int) (text : String)
  | logFatalf (pfx : String) (err : GoError)
  deriving DecidableEq, Repr

/-- The file system: the existing files with their content. -/
abbrev FS := List (String × String)

/-- What the program changes: the files and the trace of calls made so far. -/
structure World where
  fs : FS
  trace : List Event
  deriving DecidableEq, Repr

/-- Append one call to the trace. -/
def World.emit (w : World) (e : Event) : World :=
  { w with trace := w.trace ++ [e] }

/-- The outside world of one run: configuration and the outcome of each call
that leaves the program. -/
structure Env where
  /-- The value of `TELEGRAM_BOT_TOKEN`. -/
  botToken : String
  /-- The value of `GROQ_API_KEY`. -/
  groqAPIKey : String
  /-- The call `bot.GetFile` for a file id. -/
  getFile : String → Except String File
  /-- The call `http.DefaultClient.Get` for a URL. -/
  httpGet : String → Except String Response
  /-- The call `http.DefaultClient.Do` for a request. -/
  httpDo : Request → Except String Response
  /-- The call `bot.Send` of a text message to a chat: its error. -/
  send : Int → String → Option String
  /-- The directory `os.TempDir()`. -/
  tempDir : String
  /-- The random part `os.CreateTemp` draws on its n-th try. -/
  nextRandom : Nat → String
  /-- An error of `os.OpenFile` other than "file exists". -/
  openErr : String → Option String
  /-- A write error while copying the given data to the given file. -/
  writeErr : String → String → Option String
  /-- The engine: the bytes written to standard output and the error of `Run`. -/
  ffmpeg : FFmpegCall → String × Option String
  /-- The boundary `multipart.NewWriter` draws. -/
  boundary : String
  /-- The order in which `range` visits a map, as insertion positions. -/
  mapSeed : List Nat

/-! ## The transcoder: `convertFile` -/

/-- The loop of `os.CreateTemp(dir, "input*.oga")`: draw a name, open it with
`O_CREATE|O_EXCL`, try again while the name exists, at most 10000 times. -/
def createTempLoop (env : Env) (fs : FS) : Nat → Nat → Except String String
  | 0, _ => .error "createtemp: file exists"
  | fuel + 1, try_ =>
    let name := env.tempDir ++ "/input" ++ env.nextRandom try_ ++ ".oga"
    if fs.any (fun f => f.1 = name) then createTempLoop env fs fuel (try_ + 1)
    else
      match env.openErr name with
      | some e => .error e
      | none => .ok name

/-- The call `os.CreateTemp("", "input*.oga")`: the name of the new, empty file. -/
def createTemp (env : Env) (w : World) : Except String String × World :=
  match createTempLoop env w.fs 10000 0 with
  | .error e => (.error e, w)
  | .ok name => (.ok name, { w with fs := (name, "") :: w.fs })

/-- The call `os.Remove(name)`. -/
def osRemove (name : String) (w : World) : World :=
  { w with fs := w.fs.filter (fun f => f.1 ≠ name) }

/-- The call `io.Copy(file, input)` into the file `name`. -/
def copyToFile (env : Env) (name : String) (input : ReadCloser) (w : World) :
    Option String × World :=
  let w1 := { w with fs := w.fs.map (fun f => if f.1 = name then (f.1, input.data) else f) }
  match env.writeErr name input.data with
  | some e => (some e, w1)
  | none => (input.err, w1)

/-- The options of the engine's output, as written in `convertFile`. -/
def outputKwArgs : List (String × String) :=
  [("ar", "16000"), ("ac", "1"), ("f", "ogg")]

/-- The body of `convertFile` after the two `defer` statements. -/
def convertFileBody (env : Env) (name : String) (input : ReadCloser) (w : World) :
    (Option ReadCloser × Option GoError) × World :=
  match copyToFile env name input w with
  | (some e, w1) =>
    ((none, some (.errorf ("failed to write input to temp file: " ++ e))), w1)
  | (none, w1) =>
    let call : FFmpegCall :=
      { input := name, inputData := w1.fs.lookup name, output := "pipe:", kwargs := outputKwArgs }
    let w2 := w1.emit (.ffmpegRun call)
    match env.ffmpeg call with
    | (_, some e) => ((none, some (.errorf ("ffmpeg conversion failed: " ++ e))), w2)
    | (out, none) => ((some (ReadCloser.mk out none), none), w2)

/-- The function `convertFile`: `(nil, err)` or `(reader, nil)`.  The deferred
`os.Remove(tmpInputFile.Name())` (and `input.Close()`, which changes nothing
here) run when the body returns, whatever it returns. -/
def convertFile (env : Env) (input : ReadCloser) (w : World) :
    (Option ReadCloser × Option GoError) × World :=
  match createTemp env w with
  | (.error e, w1) =>
    ((none, some (.errorf ("failed to create temp input file: " ++ e))), w1)
  | (.ok name, w1) =>
    match convertFileBody env name input w1 with
    | (r, w2) => (r, osRemove name w2)


/-! ## The transcription clients -/

/-- A value of the `map[string]io.Reader`: a `strings.NewReader` (no `Close`
method) or the audio stream (an `io.ReadCloser`). -/
inductive FormValue where
  | text (s : String)
  | file (f : ReadCloser)
  deriving DecidableEq, Repr

/-- Put `x` at position `i` of `xs` (at the end if `i` is too large). -/
def insertAt {α : Type} (x : α) (i : Nat) (xs : List α) : List α :=
  xs.take i ++ x :: xs.drop i

/-- The order in which `range` visits the entries of a map: some permutation
of them, picked by the seed. -/
def rangeOrder {α : Type} : List Nat → List α → List α
  | _, [] => []
  | [], x :: xs => x :: xs
  | i :: is, x :: xs => insertAt x (i % (xs.length + 1)) (rangeOrder is xs)

/-- The body of `for key, r := range values`: each entry becomes one part, a
file part named `file.ogg` for an `io.ReadCloser` and a plain field otherwise;
`io.Copy` fails when the stream does.  Writes go to a `bytes.Buffer` and do
not fail. -/
def writeForm : List (String × FormValue) → List Part → List Part × Option GoError
  | [], parts => (parts, none)
  | (key, .text s) :: rest, parts => writeForm rest (parts ++ [Part.mk key none s])
  | (key, .file f) :: rest, parts =>
    match f.err with
    | some e => (parts ++ [Part.mk key (some "file.ogg") f.data], some (.ext e))
    | none => writeForm rest (parts ++ [Part.mk key (some "file.ogg") f.data])

/-- The endpoint both clients post to. -/
def transcriptionsURL : String := "https://api.groq.com/openai/v1/audio/transcriptions"

/-- The function `getAudioText`: the pair `(t, err)` it returns. -/
def getAudioText (env : Env) (file : ReadCloser) (w : World) :
    (String × Option GoError) × World :=
  let values : List (String × FormValue) :=
    [("model", .text "distil-whisper-large-v3-en"),
     ("response_format", .text "json"),
     ("language", .text "en"),
     ("temperature", .text "0"),
     ("file", .file file)]
  match writeForm (rangeOrder env.mapSeed values) [] with
  | (_, some e) => (("", some e), w)
  | (parts, none) =>
    let req : Request :=
      { method := "POST"
        url := "https://api.groq.com/openai/v1/audio/transcriptions"
        contentType := "multipart/form-data; boundary=" ++ env.boundary
        authorization := "bearer " ++ env.groqAPIKey
        form := parts }
    let w1 := w.emit (.httpDo req)
    match env.httpDo req with
    | .error e => (("", some (.ext e)), w1)
    | .ok res =>
      match res.Body.err with
      | some e => (("", some (.ext e)), w1)
      | none =>
        let body := res.Body.data
        if res.StatusCode ≠ 200 then
          (("", some (.errorf ("bad status (" ++ toString res.StatusCode ++ "): " ++ body))), w1)
        else
          match jsonUnmarshal body (TextResponse.mk "") with
          | (_, some e) => (("", some e), w1)
          | (r, none) => ((r.Text, none), w1)

/-- The function `getAudioTranslation`: the pair `(t, err)` it returns. -/
def getAudioTranslation (env : Env) (file : ReadCloser) (w : World) :
    (String × Option GoError) × World :=
  let values : List (String × FormValue) :=
    [("model", .text "whisper-large-v3"),
     ("response_format", .text "json"),
     ("language", .text "pt"),
     ("temperature", .text "0"),
     ("file", .file file)]
  match writeForm (rangeOrder env.mapSeed values) [] with
  | (_, some e) => (("", some e), w)
  | (parts, none) =>
    let req : Request :=
      { method := "POST"
        url := "https://api.groq.com/openai/v1/audio/transcriptions"
        contentType := "multipart/form-data; boundary=" ++ env.boundary
        authorization := "bearer " ++ env.groqAPIKey
        form := parts }
    let w1 := w.emit (.httpDo req)
    match env.httpDo req with
    | .error e => (("", some (.ext e)), w1)
    | .ok res =>
      match res.Body.err with
      | some e => (("", some (.ext e)), w1)
      | none =>
        let body := res.Body.data
        if res.StatusCode ≠ 200 then
          (("", some (.errorf ("bad status (" ++ toString res.StatusCode ++ "): " ++ body))), w1)
        else
          match jsonUnmarshal body (TextResponse.mk "") with
          | (_, some e) => (("", some e), w1)
          | (r, none) => ((r.Text, none), w1)

/-! ## The message pipeline: `handleAudioUpdate` -/

/-- Where control is after a statement: it goes on, or the process has exited. -/
inductive Ctl where
  | next (w : World)
  | exit (w : World)
  deriving DecidableEq, Repr

/-- The function `handlerErr`: `log.Fatalf` (log, then `os.Exit(1)`) when the
error is not nil. -/
def handlerErr (pfx : String) (err : Option GoError) (w : World) : Ctl :=
  match err with
  | some e => .exit (w.emit (.logFatalf pfx e))
  | none => .next w

/-- How a run of `handleAudioUpdate` ends: it returns, the process exits in
`log.Fatalf`, or a nil pointer is dereferenced. -/
inductive Outcome where
  | returned
  | fatal
  | panicked
  deriving DecidableEq, Repr

/-- A library result `(v, err)`: the value is there exactly when the error is nil. -/
def goResult {α : Type} (r : Except String α) : Option α × Option GoError :=
  match r with
  | .ok v => (some v, none)
  | .error e => (none, some (.ext e))

/-- The method `File.Link`: `fmt.Sprintf(FileEndpoint, token, f.FilePath)`. -/
def File.Link (f : File) (token : String) : String :=
  "https://api.telegram.org/file/bot" ++ token ++ "/" ++ f.FilePath

/-- The function `handleAudioUpdate`. -/
def handleAudioUpdate (env : Env) (update : Update) (w : World) : Outcome × World :=
  match update.Message with
  | none => (.panicked, w)
  | some message =>
  match message.Voice with
  | none => (.panicked, w)
  | some voice =>
  let w := w.emit (.getFile voice.FileID)
  let (file, err) := goResult (env.getFile voice.FileID)
  match handlerErr "GetFile" err w with
  | .exit w => (.fatal, w)
  | .next w =>
  match file with
  | none => (.panicked, w)
  | some file =>
  let fileLink := file.Link env.botToken
  let w := w.emit (.logPrintf ("file link: " ++ fileLink))
  let w := w.emit (.httpGet fileLink)
  let (fileRes, err) := goResult (env.httpGet fileLink)
  match handlerErr "http.Get(fileLink)" err w with
  | .exit w => (.fatal, w)
  | .next w =>
  match fileRes with
  | none => (.panicked, w)
  | some fileRes =>
  match convertFile env fileRes.Body w with
  | ((convertedFile, err), w) =>
  match handlerErr "convertFile" err w with
  | .exit w => (.fatal, w)
  | .next w =>
  match convertedFile with
  | none => (.panicked, w)
  | some convertedFile =>
  match getAudioTranslation env convertedFile w with
  | ((audioText, err), w) =>
  match handlerErr "upload audio" err w with
  | .exit w => (.fatal, w)
  | .next w =>
  match message.Chat with
  | none => (.panicked, w)
  | some chat =>
  let w := w.emit (.send chat.ID audioText)
  match handlerErr "bot.Send" ((env.send chat.ID audioText).map GoError.ext) w with
  | .exit w => (.fatal, w)
  | .next w => (.returned, w)


/-! ## The dispatcher loop of `main` -/

/-- One iteration of `for update := range bot.GetUpdatesChan(...)`:
`if update.Message == nil || update.Message.Voice == nil { continue }`,
otherwise `go handleAudioUpdate(bot, update)`, which starts a goroutine and
goes on without waiting for it. -/
def mainStep (w : World) (update : Update) : World :=
  match update.Message with
  | none => w
  | some m =>
    match m.Voice with
    | none => w
    | some _ => w.emit (.goHandle update)

/-- The loop of `main` over the updates received until the channel is closed. -/
def mainLoop (updates : List Update) (w : World) : World :=
  updates.foldl mainStep w

/-- An update carries a voice message: `Message` non-nil and `Message.Voice`
non-nil. -/
def carriesVoice (u : Update) : Bool :=
  match u.Message with
  | none => false
  | some m => m.Voice.isSome

/-- The engine run `convertFile` makes for a temp file name and an input. -/
def engineCall (name : String) (input : ReadCloser) : FFmpegCall :=
  { input := name, inputData := some input.data, output := "pipe:", kwargs := outputKwArgs }

/-! ## Reading a trace -/

/-- The outbound replies of a trace: the `(chat, text)` of each `bot.Send`. -/
def replies (t : List Event) : List (Int × String) :=
  t.filterMap (fun e => match e with
    | .send c s => some (c, s)
    | _ => none)

/-- The requests a trace sent to the transcription endpoint. -/
def uploads (t : List Event) : List Request :=
  t.filterMap (fun e => match e with
    | .httpDo r => some r
    | _ => none)

/-- The engine runs of a trace. -/
def engineRuns (t : List Event) : List FFmpegCall :=
  t.filterMap (fun e => match e with
    | .ffmpegRun c => some c
    | _ => none)

/-- The pipeline steps of `handleAudioUpdate`. -/
inductive Step where
  | resolve
  | download
  | transcode
  | transcribe
  | reply
  deriving DecidableEq, Repr

/-- The step an outbound call belongs to (log lines belong to none). -/
def stepOf : Event → Option Step
  | .getFile _ => some .resolve
  | .httpGet _ => some .download
  | .ffmpegRun _ => some .transcode
  | .httpDo _ => some .transcribe
  | .send _ _ => some .reply
  | _ => none

/-- The steps of a trace, in the order their calls were made. -/
def steps (t : List Event) : List Step := t.filterMap stepOf

/-- The fixed order of the pipeline. -/
def stepOrder : List Step :=
  [.resolve, .download, .transcode, .transcribe, .reply]

/-! ## The one parameterized client the two functions are instances of -/

/-- The five form values for a model and a language. -/
def formValues (model language : String) (file : ReadCloser) : List (String × FormValue) :=
  [("model", .text model),
   ("response_format", .text "json"),
   ("language", .text language),
   ("temperature", .text "0"),
   ("file", .file file)]

/-- The part one form value is written as. -/
def toPart : String × FormValue → Part
  | (key, .text s) => Part.mk key none s
  | (key, .file f) => Part.mk key (some "file.ogg") f.data

/-- The authenticated POST request carrying a form. -/
def uploadRequest (env : Env) (parts : List Part) : Request :=
  { method := "POST"
    url := transcriptionsURL
    contentType := "multipart/form-data; boundary=" ++ env.boundary
    authorization := "bearer " ++ env.groqAPIKey
    form := parts }

/-- The result for one response of the endpoint, by status and body. -/
def readResponse (res : Response) : String × Option GoError :=
  match res.Body.err with
  | some e => ("", some (.ext e))
  | none =>
    if res.StatusCode = 200 then
      match jsonUnmarshal res.Body.data (TextResponse.mk "") with
      | (r, none) => (r.Text, none)
      | (_, some e) => ("", some e)
    else ("", some (.errorf ("bad status (" ++ toString res.StatusCode ++ "): " ++ res.Body.data)))

/-- The parameterized client `transcribe(model, language, audio)`: build the
form, post it, read the response. -/
def transcribe (model language : String) (env : Env) (file : ReadCloser) (w : World) :
    (String × Option GoError) × World :=
  match writeForm (rangeOrder env.mapSeed (formValues model language file)) [] with
  | (_, some e) => (("", some e), w)
  | (parts, none) =>
    match env.httpDo (uploadRequest env parts) with
    | .error e => (("", some (.ext e)), w.emit (.httpDo (uploadRequest env parts)))
    | .ok res => (readResponse res, w.emit (.httpDo (uploadRequest env parts)))

/-- The world of a run at the call of `convertFile`: `GetFile`, the log line
and the download have been added to the trace. -/
def afterDownload (env : Env) (voice : Voice) (file : File) (w : World) : World :=
  ((w.emit (.getFile voice.FileID)).emit
    (.logPrintf ("file link: " ++ file.Link env.botToken))).emit
    (.httpGet (file.Link env.botToken))

/-! ## Fixtures: the mocked outside world of the test scenarios -/

/-- The mocked outside world: the file reference resolves, the download
answers `dlStatus` with `dlBody`, the engine turns the fixture `oga-sample`
into `pcm-sample` and fails on any other input, the transcription endpoint
answers `status` with `body`, the reply is delivered. -/
def mockEnv (dlStatus : Int) (dlBody : String) (status : Int) (body : String) : Env :=
  { botToken := "TOKEN"
    groqAPIKey := "KEY"
    getFile := fun fid => .ok (File.mk fid "voice/file_1.oga")
    httpGet := fun _ => .ok (Response.mk dlStatus (ReadCloser.mk dlBody none))
    httpDo := fun _ => .ok (Response.mk status (ReadCloser.mk body none))
    send := fun _ _ => none
    tempDir := "/tmp"
    nextRandom := fun n => toString n
    openErr := fun _ => none
    writeErr := fun _ _ => none
    ffmpeg := fun call =>
      if call.inputData = some "oga-sample" then ("pcm-sample", none) else ("", some "exit status 1")
    boundary := "boundary"
    mapSeed := [] }

/-- The mocked outside world with the download failing in transport. -/
def offlineEnv : Env :=
  { mockEnv 200 "oga-sample" 200 "" with httpGet := fun _ => .error "i/o timeout" }

/-- A voice message with file reference `F1` in chat 1. -/
def voiceUpdate : Update :=
  Update.mk 1 (some (Message.mk (some (Chat.mk 1)) (some (Voice.mk "F1"))))

/-- The world before a run: no files, no calls yet. -/
def emptyWorld : World := World.mk [] []

/-- The transcoded audio of the scenarios. -/
def pcmSample : ReadCloser := ReadCloser.mk "pcm-sample" none

/-! ## Lemmas -/

theorem mainStep_eq (w : World) (u : Update) :
    mainStep w u =
      { w with trace := w.trace ++ (if carriesVoice u then [Event.goHandle u] else []) } := by
  unfold mainStep carriesVoice
  cases u.Message with
  | none => simp
  | some m => cases hv : m.Voice <;> simp [World.emit, hv]

theorem foldl_mainStep (updates : List Update) (w : World) :
    updates.foldl mainStep w =
      { w with trace := w.trace ++ (updates.filter carriesVoice).map Event.goHandle } := by
  induction updates generalizing w with
  | nil => simp
  | cons u us ih =>
    rw [List.foldl_cons, ih, mainStep_eq, List.filter_cons]
    by_cases h : carriesVoice u <;> simp [h]

theorem createTempLoop_fresh (env : Env) (fs : FS) (fuel try_ : Nat) (name : String)
    (h : createTempLoop env fs fuel try_ = .ok name) :
    ∀ f ∈ fs, f.1 ≠ name := by
  induction fuel generalizing try_ with
  | zero => simp [createTempLoop] at h
  | succ n ih =>
    unfold createTempLoop at h
    simp only at h
    split at h
    · exact ih _ h
    · rename_i hany
      split at h
      · simp at h
      · simp only [Except.ok.injEq] at h
        subst h
        intro f hf hEq
        exact hany (List.any_eq_true.mpr ⟨f, hf, by simp [hEq]⟩)

theorem fs_restore (fs : FS) (name data : String) (hfresh : ∀ f ∈ fs, f.1 ≠ name) :
    (((name, "") :: fs).map (fun f => if f.1 = name then (f.1, data) else f)).filter
      (fun f => f.1 ≠ name) = fs := by
  have hmap : fs.map (fun f => if f.1 = name then (f.1, data) else f) = fs := by
    conv_rhs => rw [← List.map_id fs]
    apply List.map_congr_left
    intro f hf
    simp [hfresh f hf]
  simp only [List.map_cons, hmap, if_true]
  rw [List.filter_cons]
  simp only [ne_eq, not_true_eq_false, decide_False, Bool.false_eq_true, if_false]
  apply List.filter_eq_self.mpr
  intro f hf
  simpa using hfresh f hf

theorem convertFileBody_fs (env : Env) (name : String) (input : ReadCloser) (w : World) :
    (convertFileBody env name input w).2.fs =
      w.fs.map (fun f => if f.1 = name then (f.1, input.data) else f) := by
  unfold convertFileBody copyToFile
  cases env.writeErr name input.data <;> cases input.err <;> simp [World.emit]
  all_goals split <;> simp

theorem convertFile_fs (env : Env) (input : ReadCloser) (w : World) :
    (convertFile env input w).2.fs = w.fs := by
  unfold convertFile createTemp
  cases h : createTempLoop env w.fs 10000 0 with
  | error e => simp
  | ok name =>
    simp only [osRemove, convertFileBody_fs]
    exact fs_restore w.fs name input.data (createTempLoop_fresh env w.fs _ _ name h)

theorem lookup_written (fs : FS) (name data : String) :
    (((name, "") :: fs).map (fun f => if f.1 = name then (f.1, data) else f)).lookup name =
      some data := by
  have h : (if (name, "").1 = name then ((name, "").1, data) else (name, "")) = (name, data) :=
    if_pos rfl
  rw [List.map_cons, h, List.lookup_cons]
  simp

/-- The three ways `convertFile` ends: before the engine runs (world unchanged),
with a failed engine run, or with a successful one. -/
theorem convertFile_cases (env : Env) (input : ReadCloser) (w : World) :
    (∃ e, convertFile env input w = ((none, some (GoError.errorf e)), w)) ∨
    (∃ name e, env.ffmpeg (engineCall name input) = ((env.ffmpeg (engineCall name input)).1, some e) ∧
      convertFile env input w =
        ((none, some (GoError.errorf ("ffmpeg conversion failed: " ++ e))),
          w.emit (.ffmpegRun (engineCall name input)))) ∨
    (∃ name, (env.ffmpeg (engineCall name input)).2 = none ∧
      convertFile env input w =
        ((some (ReadCloser.mk (env.ffmpeg (engineCall name input)).1 none), none),
          w.emit (.ffmpegRun (engineCall name input)))) := by
  unfold convertFile createTemp
  cases h : createTempLoop env w.fs 10000 0 with
  | error e => exact Or.inl ⟨_, rfl⟩
  | ok name =>
    have hfresh := createTempLoop_fresh env w.fs _ _ name h
    have hfs := fs_restore w.fs name input.data hfresh
    have hlk := lookup_written w.fs name input.data
    simp only [convertFileBody, copyToFile]
    cases hw : env.writeErr name input.data with
    | some e =>
      refine Or.inl ⟨"failed to write input to temp file: " ++ e, ?_⟩
      simp only [osRemove, hfs]
    | none =>
      cases hi : input.err with
      | some e =>
        refine Or.inl ⟨"failed to write input to temp file: " ++ e, ?_⟩
        simp only [osRemove, hfs]
      | none =>
        simp only [hlk]
        have hcall : FFmpegCall.mk name (some input.data) "pipe:" outputKwArgs =
            engineCall name input := rfl
        rw [hcall]
        rcases hff : env.ffmpeg (engineCall name input) with ⟨out, err⟩
        cases err with
        | some e =>
          refine Or.inr (Or.inl ⟨name, e, ?_, ?_⟩)
          · simp [hff]
          · simp only [osRemove, World.emit, hfs]
        | none =>
          refine Or.inr (Or.inr ⟨name, ?_, ?_⟩)
          · simp [hff]
          · simp only [osRemove, World.emit, hfs, hff]

theorem insertAt_perm {α : Type} (x : α) (i : Nat) (xs : List α) :
    (insertAt x i xs).Perm (x :: xs) := by
  unfold insertAt
  refine List.perm_middle.trans ?_
  rw [List.take_append_drop]

theorem rangeOrder_perm {α : Type} (seed : List Nat) (xs : List α) :
    (rangeOrder seed xs).Perm xs := by
  induction xs generalizing seed with
  | nil => cases seed <;> simp [rangeOrder]
  | cons x xs ih =>
    cases seed with
    | nil => simp [rangeOrder]
    | cons i is =>
      simp only [rangeOrder]
      exact (insertAt_perm x _ _).trans ((ih is).cons x)

/-- A form value whose stream can be read to the end. -/
theorem writeForm_readable (vs : List (String × FormValue)) (parts : List Part)
    (h : ∀ k f, (k, FormValue.file f) ∈ vs → f.err = none) :
    writeForm vs parts = (parts ++ vs.map toPart, none) := by
  induction vs generalizing parts with
  | nil => simp [writeForm]
  | cons kv rest ih =>
    obtain ⟨k, v⟩ := kv
    have hrest : ∀ k f, (k, FormValue.file f) ∈ rest → f.err = none :=
      fun k f hm => h k f (List.mem_cons_of_mem _ hm)
    cases v with
    | text s => simp [writeForm, ih _ hrest, toPart]
    | file f =>
      have hf : f.err = none := h k f (List.mem_cons_self _ _)
      simp [writeForm, hf, ih _ hrest, toPart]

theorem formValues_readable (model language : String) (file : ReadCloser) (hfile : file.err = none)
    (seed : List Nat) :
    ∀ k f, (k, FormValue.file f) ∈ rangeOrder seed (formValues model language file) →
      f.err = none := by
  intro k f hm
  have hm2 := (rangeOrder_perm seed (formValues model language file)).mem_iff.mp hm
  simp [formValues] at hm2
  rw [hm2.2, hfile]

theorem getAudioText_eq_transcribe (env : Env) (file : ReadCloser) (w : World) :
    getAudioText env file w = transcribe "distil-whisper-large-v3-en" "en" env file w := by
  unfold getAudioText transcribe formValues uploadRequest readResponse transcriptionsURL
  dsimp only
  rcases writeForm _ [] with ⟨parts, _ | e⟩
  · simp only
    cases env.httpDo _ with
    | error e => rfl
    | ok res =>
      simp only
      cases res.Body.err with
      | some e => rfl
      | none =>
        simp only
        by_cases hs : res.StatusCode = 200
        · simp only [hs, ne_eq, not_true_eq_false, if_false, if_true]
          rcases jsonUnmarshal res.Body.data (TextResponse.mk "") with ⟨r, _ | e⟩ <;> rfl
        · simp only [hs, ne_eq, not_false_eq_true, if_false, if_true]
  · rfl

theorem getAudioTranslation_eq_transcribe (env : Env) (file : ReadCloser) (w : World) :
    getAudioTranslation env file w = transcribe "whisper-large-v3" "pt" env file w := by
  unfold getAudioTranslation transcribe formValues uploadRequest readResponse transcriptionsURL
  dsimp only
  rcases writeForm _ [] with ⟨parts, _ | e⟩
  · simp only
    cases env.httpDo _ with
    | error e => rfl
    | ok res =>
      simp only
      cases res.Body.err with
      | some e => rfl
      | none =>
        simp only
        by_cases hs : res.StatusCode = 200
        · simp only [hs, ne_eq, not_true_eq_false, if_false, if_true]
          rcases jsonUnmarshal res.Body.data (TextResponse.mk "") with ⟨r, _ | e⟩ <;> rfl
        · simp only [hs, ne_eq, not_false_eq_true, if_false, if_true]
  · rfl

/-- With a readable audio stream the request is always sent, and the result is
read off the response. -/
theorem transcribe_readable (model language : String) (env : Env) (file : ReadCloser) (w : World)
    (hfile : file.err = none) :
    transcribe model language env file w =
      (match env.httpDo (uploadRequest env
          ((rangeOrder env.mapSeed (formValues model language file)).map toPart)) with
        | .error e => ("", some (GoError.ext e))
        | .ok res => readResponse res,
       w.emit (.httpDo (uploadRequest env
          ((rangeOrder env.mapSeed (formValues model language file)).map toPart)))) := by
  unfold transcribe
  rw [writeForm_readable _ _ (formValues_readable model language file hfile env.mapSeed)]
  simp only [List.nil_append]
  cases env.httpDo _ <;> rfl

theorem decodeMembers_filter (kvs : List (String × JSON)) (st : TextResponse × Option GoError) :
    decodeMembers kvs st =
      (kvs.filter (fun kv => matchesTextField kv.1)).foldl (fun acc kv => storeText acc kv.2) st := by
  unfold decodeMembers
  induction kvs generalizing st with
  | nil => rfl
  | cons kv rest ih =>
    rw [List.foldl_cons, ih, List.filter_cons]
    by_cases h : matchesTextField kv.1 <;> simp [h]

theorem replies_emit (w : World) (e : Event) :
    replies (w.emit e).trace = replies w.trace ++
      (match e with
        | .send c s => [(c, s)]
        | _ => []) := by
  cases e <;> simp [World.emit, replies, List.filterMap_append]

theorem steps_emit (w : World) (e : Event) :
    steps (w.emit e).trace = steps w.trace ++ (stepOf e).toList := by
  cases e <;> simp [World.emit, steps, List.filterMap_append, stepOf]

theorem uploads_emit (w : World) (e : Event) :
    uploads (w.emit e).trace = uploads w.trace ++
      (match e with
        | .httpDo r => [r]
        | _ => []) := by
  cases e <;> simp [World.emit, uploads, List.filterMap_append]

theorem engineRuns_emit (w : World) (e : Event) :
    engineRuns (w.emit e).trace = engineRuns w.trace ++
      (match e with
        | .ffmpegRun c => [c]
        | _ => []) := by
  cases e <;> simp [World.emit, engineRuns, List.filterMap_append]

/-- The client adds at most its upload to the trace and leaves the files alone. -/
theorem getAudioTranslation_world (env : Env) (file : ReadCloser) (w : World) :
    (getAudioTranslation env file w).2 = w ∨
      ∃ req, (getAudioTranslation env file w).2 = w.emit (.httpDo req) := by
  rw [getAudioTranslation_eq_transcribe]
  unfold transcribe
  rcases writeForm _ [] with ⟨parts, _ | e⟩
  · right
    refine ⟨uploadRequest env parts, ?_⟩
    cases h : env.httpDo (uploadRequest env parts) <;> simp [h]
  · left; rfl

/-- When the client fails whatever it is given, the run sends no reply and does
not return. -/
theorem pipeline_no_reply (env : Env) (update : Update) (w : World)
    (hfail : ∀ file w1, file.err = none → ∃ e, (getAudioTranslation env file w1).1 = ("", some e)) :
    replies (handleAudioUpdate env update w).2.trace = replies w.trace ∧
      (handleAudioUpdate env update w).1 ≠ Outcome.returned := by
  unfold handleAudioUpdate
  cases hm : update.Message with
  | none => simp
  | some message =>
  cases hv : message.Voice with
  | none => simp [hv]
  | some voice =>
  cases hgf : env.getFile voice.FileID with
  | error e => simp [hv, hgf, goResult, handlerErr, replies_emit]
  | ok file =>
  cases hget : env.httpGet (file.Link env.botToken) with
  | error e => simp [hv, hgf, hget, goResult, handlerErr, replies_emit]
  | ok fileRes =>
  simp only [hv, hgf, hget, goResult, handlerErr]
  rcases convertFile_cases env fileRes.Body
      (((w.emit (.getFile voice.FileID)).emit
        (.logPrintf ("file link: " ++ file.Link env.botToken))).emit
        (.httpGet (file.Link env.botToken))) with ⟨e, hc⟩ | ⟨name, e, _, hc⟩ | ⟨name, _, hc⟩
  · simp [hc, replies_emit]
  · simp [hc, replies_emit]
  · simp only [hc]
    obtain ⟨e, he⟩ := hfail (ReadCloser.mk (env.ffmpeg (engineCall name fileRes.Body)).1 none)
      ((((w.emit (.getFile voice.FileID)).emit
        (.logPrintf ("file link: " ++ file.Link env.botToken))).emit
        (.httpGet (file.Link env.botToken))).emit (.ffmpegRun (engineCall name fileRes.Body))) rfl
    rcases getAudioTranslation_world env (ReadCloser.mk (env.ffmpeg (engineCall name fileRes.Body)).1 none)
      ((((w.emit (.getFile voice.FileID)).emit
        (.logPrintf ("file link: " ++ file.Link env.botToken))).emit
        (.httpGet (file.Link env.botToken))).emit (.ffmpegRun (engineCall name fileRes.Body)))
      with hw | ⟨req, hw⟩
    · simp [he, hw, replies_emit]
    · simp [he, hw, replies_emit]

theorem writeForm_ok (vs : List (String × FormValue)) (acc parts : List Part)
    (h : writeForm vs acc = (parts, none)) : parts = acc ++ vs.map toPart := by
  induction vs generalizing acc with
  | nil =>
    simp only [writeForm, Prod.mk.injEq, and_true] at h
    simp [h]
  | cons kv rest ih =>
    obtain ⟨k, v⟩ := kv
    cases v with
    | text s =>
      simp only [writeForm] at h
      rw [ih _ h]
      simp [toPart]
    | file f =>
      simp only [writeForm] at h
      cases hf : f.err with
      | some e => simp [hf] at h
      | none =>
        simp only [hf] at h
        rw [ih _ h]
        simp [toPart]

/-- Every request `transcribe` sends carries the five form values, in the
order `range` visited them. -/
theorem transcribe_uploads (model language : String) (env : Env) (file : ReadCloser) (w : World) :
    uploads (transcribe model language env file w).2.trace = uploads w.trace ∨
      uploads (transcribe model language env file w).2.trace = uploads w.trace ++
        [uploadRequest env ((rangeOrder env.mapSeed (formValues model language file)).map toPart)] := by
  unfold transcribe
  rcases hwf : writeForm (rangeOrder env.mapSeed (formValues model language file)) []
    with ⟨parts, _ | e⟩
  · right
    have hp := writeForm_ok _ _ _ hwf
    simp only [List.nil_append] at hp
    subst hp
    cases h : env.httpDo (uploadRequest env
      ((rangeOrder env.mapSeed (formValues model language file)).map toPart)) <;>
      simp [h, uploads_emit]
  · left; rfl

theorem convertFile_engineRuns (env : Env) (input : ReadCloser) (w : World) :
    engineRuns (convertFile env input w).2.trace = engineRuns w.trace ∨
      ∃ name, engineRuns (convertFile env input w).2.trace =
        engineRuns w.trace ++ [engineCall name input] := by
  rcases convertFile_cases env input w with ⟨e, hc⟩ | ⟨name, e, _, hc⟩ | ⟨name, _, hc⟩
  · left; rw [hc]
  · right; exact ⟨name, by rw [hc]; simp [engineRuns_emit]⟩
  · right; exact ⟨name, by rw [hc]; simp [engineRuns_emit]⟩

/-- With a readable audio stream and an endpoint that answers `res`, the
client returns what `readResponse` reads off `res`. -/
theorem getAudioTranslation_reads (env : Env) (file : ReadCloser) (w : World) (res : Response)
    (hfile : file.err = none)
    (hdo : ∀ req, req.url = transcriptionsURL → env.httpDo req = .ok res) :
    (getAudioTranslation env file w).1 = readResponse res := by
  rw [getAudioTranslation_eq_transcribe, transcribe_readable _ _ _ _ _ hfile]
  simp only [hdo (uploadRequest env _) rfl]

theorem readResponse_bad_status (res : Response) (hbody : res.Body.err = none)
    (hstatus : res.StatusCode ≠ 200) :
    readResponse res =
      ("", some (GoError.errorf
        ("bad status (" ++ toString res.StatusCode ++ "): " ++ res.Body.data))) := by
  simp [readResponse, hbody, hstatus]

theorem readResponse_ok (res : Response) (hbody : res.Body.err = none)
    (hstatus : res.StatusCode = 200) :
    readResponse res =
      (match jsonUnmarshal res.Body.data (TextResponse.mk "") with
        | (r, none) => (r.Text, none)
        | (_, some e) => ("", some e)) := by
  simp [readResponse, hbody, hstatus]

theorem jsonUnmarshal_single (data : String) (kvs : List (String × JSON)) (k s : String)
    (r : TextResponse) (hparse : parseJSON data = some (.obj kvs))
    (hone : kvs.filter (fun kv => matchesTextField kv.1) = [(k, JSON.str s)]) :
    jsonUnmarshal data r = (TextResponse.mk s, none) := by
  simp [jsonUnmarshal, hparse, decodeMembers_filter, hone, storeText]

theorem jsonUnmarshal_absent (data : String) (kvs : List (String × JSON))
    (r : TextResponse) (hparse : parseJSON data = some (.obj kvs))
    (hnone : kvs.filter (fun kv => matchesTextField kv.1) = []) :
    jsonUnmarshal data r = (r, none) := by
  simp [jsonUnmarshal, hparse, decodeMembers_filter, hnone]

/-! ### The run of `handleAudioUpdate`, stage by stage -/

theorem run_resolve_error (env : Env) (update : Update) (w : World) (message : Message)
    (voice : Voice) (e : String)
    (hm : update.Message = some message) (hv : message.Voice = some voice)
    (hgf : env.getFile voice.FileID = .error e) :
    handleAudioUpdate env update w =
      (Outcome.fatal, (w.emit (.getFile voice.FileID)).emit (.logFatalf "GetFile" (.ext e))) := by
  unfold handleAudioUpdate
  simp [hm, hv, hgf, goResult, handlerErr]

theorem run_download_error (env : Env) (update : Update) (w : World) (message : Message)
    (voice : Voice) (file : File) (e : String)
    (hm : update.Message = some message) (hv : message.Voice = some voice)
    (hgf : env.getFile voice.FileID = .ok file)
    (hget : env.httpGet (file.Link env.botToken) = .error e) :
    handleAudioUpdate env update w =
      (Outcome.fatal,
        (afterDownload env voice file w).emit (.logFatalf "http.Get(fileLink)" (.ext e))) := by
  unfold handleAudioUpdate
  simp [hm, hv, hgf, hget, goResult, handlerErr, afterDownload]

theorem run_convert_error (env : Env) (update : Update) (w w4 : World) (message : Message)
    (voice : Voice) (file : File) (fileRes : Response) (cf : Option ReadCloser) (e : GoError)
    (hm : update.Message = some message) (hv : message.Voice = some voice)
    (hgf : env.getFile voice.FileID = .ok file)
    (hget : env.httpGet (file.Link env.botToken) = .ok fileRes)
    (hc : convertFile env fileRes.Body (afterDownload env voice file w) = ((cf, some e), w4)) :
    handleAudioUpdate env update w = (Outcome.fatal, w4.emit (.logFatalf "convertFile" e)) := by
  unfold handleAudioUpdate
  unfold afterDownload at hc
  simp [hm, hv, hgf, hget, goResult, handlerErr, hc]

theorem run_client_error (env : Env) (update : Update) (w w4 w5 : World) (message : Message)
    (voice : Voice) (file : File) (fileRes : Response) (cf : ReadCloser) (t : String) (e : GoError)
    (hm : update.Message = some message) (hv : message.Voice = some voice)
    (hgf : env.getFile voice.FileID = .ok file)
    (hget : env.httpGet (file.Link env.botToken) = .ok fileRes)
    (hc : convertFile env fileRes.Body (afterDownload env voice file w) = ((some cf, none), w4))
    (ha : getAudioTranslation env cf w4 = ((t, some e), w5)) :
    handleAudioUpdate env update w = (Outcome.fatal, w5.emit (.logFatalf "upload audio" e)) := by
  unfold handleAudioUpdate
  unfold afterDownload at hc
  simp [hm, hv, hgf, hget, goResult, handlerErr, hc, ha]

theorem run_reply (env : Env) (update : Update) (w w4 w5 : World) (message : Message)
    (voice : Voice) (chat : Chat) (file : File) (fileRes : Response) (cf : ReadCloser)
    (t : String)
    (hm : update.Message = some message) (hv : message.Voice = some voice)
    (hchat : message.Chat = some chat)
    (hgf : env.getFile voice.FileID = .ok file)
    (hget : env.httpGet (file.Link env.botToken) = .ok fileRes)
    (hc : convertFile env fileRes.Body (afterDownload env voice file w) = ((some cf, none), w4))
    (ha : getAudioTranslation env cf w4 = ((t, none), w5)) :
    handleAudioUpdate env update w =
      (match env.send chat.ID t with
        | some e =>
          (Outcome.fatal, (w5.emit (.send chat.ID t)).emit (.logFatalf "bot.Send" (.ext e)))
        | none => (Outcome.returned, w5.emit (.send chat.ID t))) := by
  unfold handleAudioUpdate
  unfold afterDownload at hc
  cases hs : env.send chat.ID t <;>
    simp [hm, hv, hchat, hgf, hget, goResult, handlerErr, hc, ha, hs]

theorem run_no_chat (env : Env) (update : Update) (w w4 w5 : World) (message : Message)
    (voice : Voice) (file : File) (fileRes : Response) (cf : ReadCloser) (t : String)
    (hm : update.Message = some message) (hv : message.Voice = some voice)
    (hchat : message.Chat = none)
    (hgf : env.getFile voice.FileID = .ok file)
    (hget : env.httpGet (file.Link env.botToken) = .ok fileRes)
    (hc : convertFile env fileRes.Body (afterDownload env voice file w) = ((some cf, none), w4))
    (ha : getAudioTranslation env cf w4 = ((t, none), w5)) :
    handleAudioUpdate env update w = (Outcome.panicked, w5) := by
  unfold handleAudioUpdate
  unfold afterDownload at hc
  simp [hm, hv, hchat, hgf, hget, goResult, handlerErr, hc, ha]

theorem jsonUnmarshal_invalid (data : String) (r : TextResponse)
    (hparse : parseJSON data = none) :
    jsonUnmarshal data r = (r, some GoError.jsonSyntax) := by
  simp [jsonUnmarshal, hparse]

theorem jsonUnmarshal_not_object (data : String) (r : TextResponse) (v : JSON)
    (hparse : parseJSON data = some v) (hobj : ∀ kvs, v ≠ JSON.obj kvs) (hnull : v ≠ JSON.null) :
    jsonUnmarshal data r = (r, some (GoError.jsonType v.kind)) := by
  unfold jsonUnmarshal
  rw [hparse]
  cases v with
  | null => exact absurd rfl hnull
  | obj kvs => exact absurd rfl (hobj kvs)
  | bool b => rfl
  | num l => rfl
  | str t => rfl
  | arr xs => rfl

theorem convertFile_result_congr (env : Env) (input : ReadCloser) (w1 w2 : World)
    (h : w1.fs = w2.fs) : (convertFile env input w1).1 = (convertFile env input w2).1 := by
  unfold convertFile createTemp
  rw [h]
  cases hn : createTempLoop env w2.fs 10000 0 with
  | error e => rfl
  | ok name =>
    simp only [convertFileBody, copyToFile, h]
    cases hw : env.writeErr name input.data with
    | some e => rfl
    | none =>
      cases hi : input.err with
      | some e => rfl
      | none =>
        simp only
        split <;> rfl

theorem afterDownload_fs (env : Env) (voice : Voice) (file : File) (w : World) :
    (afterDownload env voice file w).fs = w.fs := rfl

theorem afterDownload_replies (env : Env) (voice : Voice) (file : File) (w : World) :
    replies (afterDownload env voice file w).trace = replies w.trace := by
  simp [afterDownload, replies_emit]

theorem afterDownload_uploads (env : Env) (voice : Voice) (file : File) (w : World) :
    uploads (afterDownload env voice file w).trace = uploads w.trace := by
  simp [afterDownload, uploads_emit]

theorem afterDownload_engineRuns (env : Env) (voice : Voice) (file : File) (w : World) :
    engineRuns (afterDownload env voice file w).trace = engineRuns w.trace := by
  simp [afterDownload, engineRuns_emit]

theorem afterDownload_steps (env : Env) (voice : Voice) (file : File) (w : World) :
    steps (afterDownload env voice file w).trace =
      steps w.trace ++ [Step.resolve, Step.download] := by
  simp [afterDownload, steps_emit, stepOf]

/-- A successful `convertFile` ran the engine once and hands on a stream
that ends cleanly. -/
theorem convertFile_success (env : Env) (input : ReadCloser) (w : World)
    (h : (convertFile env input w).1.2 = none) :
    ∃ name, (env.ffmpeg (engineCall name input)).2 = none ∧
      convertFile env input w =
        ((some (ReadCloser.mk (env.ffmpeg (engineCall name input)).1 none), none),
          w.emit (.ffmpegRun (engineCall name input))) := by
  rcases convertFile_cases env input w with ⟨e, hc⟩ | ⟨name, e, _, hc⟩ | ⟨name, hok, hc⟩
  · rw [hc] at h; simp at h
  · rw [hc] at h; simp at h
  · exact ⟨name, hok, hc⟩

/-- A failed `convertFile` returns no stream, and has run the engine at most once. -/
theorem convertFile_failure (env : Env) (input : ReadCloser) (w : World) (e : GoError)
    (h : (convertFile env input w).1.2 = some e) :
    convertFile env input w = ((none, some e), w) ∨
      ∃ name, convertFile env input w =
        ((none, some e), w.emit (.ffmpegRun (engineCall name input))) := by
  rcases convertFile_cases env input w with ⟨e1, hc⟩ | ⟨name, e1, _, hc⟩ | ⟨name, hok, hc⟩
  · rw [hc] at h
    simp only [Option.some.injEq] at h
    left; rw [hc, h]
  · rw [hc] at h
    simp only [Option.some.injEq] at h
    right; exact ⟨name, by rw [hc, h]⟩
  · rw [hc] at h; simp at h

/-- With a readable audio stream the client makes exactly one upload. -/
theorem getAudioTranslation_readable_world (env : Env) (file : ReadCloser) (w : World)
    (hfile : file.err = none) :
    ∃ req, (getAudioTranslation env file w).2 = w.emit (.httpDo req) := by
  rw [getAudioTranslation_eq_transcribe, transcribe_readable _ _ _ _ _ hfile]
  exact ⟨_, rfl⟩

/-- When the temp file is created and the copy succeeds, `convertFile` runs the
engine on the copied input and returns what the run gives. -/
theorem convertFile_copied (env : Env) (input : ReadCloser) (w : World) (name : String)
    (hname : createTempLoop env w.fs 10000 0 = .ok name)
    (hw : env.writeErr name input.data = none) (hi : input.err = none) :
    convertFile env input w =
      ((match env.ffmpeg (engineCall name input) with
        | (_, some e) => (none, some (GoError.errorf ("ffmpeg conversion failed: " ++ e)))
        | (out, none) => (some (ReadCloser.mk out none), none)),
       w.emit (.ffmpegRun (engineCall name input))) := by
  have hfs := fs_restore w.fs name input.data (createTempLoop_fresh env w.fs _ _ name hname)
  have hlk := lookup_written w.fs name input.data
  unfold convertFile createTemp
  simp only [hname, convertFileBody, copyToFile, hw, hi, hlk]
  have hcall : FFmpegCall.mk name (some input.data) "pipe:" outputKwArgs =
      engineCall name input := rfl
  rw [hcall]
  rcases hff : env.ffmpeg (engineCall name input) with ⟨out, _ | e⟩ <;>
    simp only [osRemove, World.emit, hfs]

/-- The new part of the trace of a run, for a voice update: one of seven
shapes, each stopping at the first step that fails. -/
theorem run_shape (env : Env) (update : Update) (w : World) (message : Message) (voice : Voice)
    (hm : update.Message = some message) (hv : message.Voice = some voice) :
    (∃ e, handleAudioUpdate env update w =
      (Outcome.fatal, World.mk w.fs (w.trace ++
        [.getFile voice.FileID, .logFatalf "GetFile" e]))) ∨
    (∃ l u e, handleAudioUpdate env update w =
      (Outcome.fatal, World.mk w.fs (w.trace ++
        [.getFile voice.FileID, .logPrintf l, .httpGet u, .logFatalf "http.Get(fileLink)" e]))) ∨
    (∃ l u e, handleAudioUpdate env update w =
      (Outcome.fatal, World.mk w.fs (w.trace ++
        [.getFile voice.FileID, .logPrintf l, .httpGet u, .logFatalf "convertFile" e]))) ∨
    (∃ l u c e, handleAudioUpdate env update w =
      (Outcome.fatal, World.mk w.fs (w.trace ++
        [.getFile voice.FileID, .logPrintf l, .httpGet u, .ffmpegRun c,
          .logFatalf "convertFile" e]))) ∨
    (∃ l u c r e, handleAudioUpdate env update w =
      (Outcome.fatal, World.mk w.fs (w.trace ++
        [.getFile voice.FileID, .logPrintf l, .httpGet u, .ffmpegRun c, .httpDo r,
          .logFatalf "upload audio" e]))) ∨
    (∃ l u c r, message.Chat = none ∧ handleAudioUpdate env update w =
      (Outcome.panicked, World.mk w.fs (w.trace ++
        [.getFile voice.FileID, .logPrintf l, .httpGet u, .ffmpegRun c, .httpDo r]))) ∨
    (∃ l u c r chat t e, message.Chat = some chat ∧ handleAudioUpdate env update w =
      (Outcome.fatal, World.mk w.fs (w.trace ++
        [.getFile voice.FileID, .logPrintf l, .httpGet u, .ffmpegRun c, .httpDo r,
          .send chat.ID t, .logFatalf "bot.Send" e]))) ∨
    (∃ l u c r chat t, message.Chat = some chat ∧ handleAudioUpdate env update w =
      (Outcome.returned, World.mk w.fs (w.trace ++
        [.getFile voice.FileID, .logPrintf l, .httpGet u, .ffmpegRun c, .httpDo r,
          .send chat.ID t]))) := by
  cases hgf : env.getFile voice.FileID with
  | error e =>
    left
    refine ⟨GoError.ext e, ?_⟩
    rw [run_resolve_error env update w message voice e hm hv hgf]
    simp only [World.emit, afterDownload, List.append_assoc, List.cons_append, List.nil_append]
  | ok file =>
  right
  cases hget : env.httpGet (file.Link env.botToken) with
  | error e =>
    left
    refine ⟨("file link: " ++ file.Link env.botToken), (file.Link env.botToken), GoError.ext e, ?_⟩
    rw [run_download_error env update w message voice file e hm hv hgf hget]
    simp only [World.emit, afterDownload, List.append_assoc, List.cons_append, List.nil_append]
  | ok fileRes =>
  right
  rcases convertFile_cases env fileRes.Body (afterDownload env voice file w)
    with ⟨e, hc⟩ | ⟨name, e, _, hc⟩ | ⟨name, _, hc⟩
  · left
    refine ⟨("file link: " ++ file.Link env.botToken), (file.Link env.botToken), GoError.errorf e, ?_⟩
    rw [run_convert_error env update w _ message voice file fileRes _ _ hm hv hgf hget hc]
    simp only [World.emit, afterDownload, List.append_assoc, List.cons_append, List.nil_append]
  · right; left
    refine ⟨("file link: " ++ file.Link env.botToken), (file.Link env.botToken), engineCall name fileRes.Body,
      GoError.errorf ("ffmpeg conversion failed: " ++ e), ?_⟩
    rw [run_convert_error env update w _ message voice file fileRes _ _ hm hv hgf hget hc]
    simp only [World.emit, afterDownload, List.append_assoc, List.cons_append, List.nil_append]
  · right; right
    obtain ⟨req, hw5⟩ := getAudioTranslation_readable_world env
      (ReadCloser.mk (env.ffmpeg (engineCall name fileRes.Body)).1 none)
      ((afterDownload env voice file w).emit (.ffmpegRun (engineCall name fileRes.Body))) rfl
    rcases hres : (getAudioTranslation env
      (ReadCloser.mk (env.ffmpeg (engineCall name fileRes.Body)).1 none)
      ((afterDownload env voice file w).emit (.ffmpegRun (engineCall name fileRes.Body)))).1
      with ⟨t, _ | e⟩
    · right
      cases hchat : message.Chat with
      | none =>
        left
        refine ⟨("file link: " ++ file.Link env.botToken), (file.Link env.botToken), engineCall name fileRes.Body,
          req, rfl, ?_⟩
        rw [run_no_chat env update w _ _ message voice file fileRes _ t hm hv hchat hgf hget hc
          (Prod.ext hres hw5)]
        simp only [World.emit, afterDownload, List.append_assoc, List.cons_append, List.nil_append]
      | some chat =>
        right
        have hrun := run_reply env update w _ _ message voice chat file fileRes _ t hm hv hchat
          hgf hget hc (Prod.ext hres hw5)
        cases hs : env.send chat.ID t with
        | some e =>
          left
          refine ⟨("file link: " ++ file.Link env.botToken), (file.Link env.botToken), engineCall name fileRes.Body,
            req, chat, t, GoError.ext e, rfl, ?_⟩
          rw [hrun, hs]
          simp only [World.emit, afterDownload, List.append_assoc, List.cons_append, List.nil_append]
        | none =>
          right
          refine ⟨("file link: " ++ file.Link env.botToken), (file.Link env.botToken), engineCall name fileRes.Body,
            req, chat, t, rfl, ?_⟩
          rw [hrun, hs]
          simp only [World.emit, afterDownload, List.append_assoc, List.cons_append, List.nil_append]
    · left
      refine ⟨("file link: " ++ file.Link env.botToken), (file.Link env.botToken), engineCall name fileRes.Body,
        req, e, ?_⟩
      rw [run_client_error env update w _ _ message voice file fileRes _ t e hm hv hgf hget hc
        (Prod.ext hres hw5)]
      simp only [World.emit, afterDownload, List.append_assoc, List.cons_append, List.nil_append]

theorem getAudioTranslation_result_congr (env : Env) (file : ReadCloser) (w1 w2 : World) :
    (getAudioTranslation env file w1).1 = (getAudioTranslation env file w2).1 := by
  rw [getAudioTranslation_eq_transcribe, getAudioTranslation_eq_transcribe]
  unfold transcribe
  split
  · rfl
  · split <;> rfl

theorem emit_getLast (w : World) (e : Event) : (w.emit e).trace.getLast? = some e := by
  simp [World.emit]

theorem storeText_error (st : TextResponse × Option GoError) (v : JSON)
    (h : st.2 = none ∨ ∃ k, st.2 = some (GoError.jsonType k)) :
    (storeText st v).2 = none ∨ ∃ k, (storeText st v).2 = some (GoError.jsonType k) := by
  rcases h with h | ⟨k, h⟩ <;> cases v <;> simp [storeText, h]

theorem decodeMembers_error (kvs : List (String × JSON)) (st : TextResponse × Option GoError)
    (h : st.2 = none ∨ ∃ k, st.2 = some (GoError.jsonType k)) :
    (decodeMembers kvs st).2 = none ∨
      ∃ k, (decodeMembers kvs st).2 = some (GoError.jsonType k) := by
  unfold decodeMembers
  induction kvs generalizing st with
  | nil => exact h
  | cons kv rest ih =>
    rw [List.foldl_cons]
    apply ih
    by_cases hk : matchesTextField kv.1
    · simp only [hk, if_true]
      exact storeText_error st kv.2 h
    · simp only [hk, Bool.false_eq_true, if_false]
      exact h

/-- The errors of `json.Unmarshal` are syntax errors and type errors. -/
theorem jsonUnmarshal_error (data : String) (r : TextResponse) (msg : String) :
    (jsonUnmarshal data r).2 ≠ some (GoError.errorf msg) := by
  unfold jsonUnmarshal
  cases parseJSON data with
  | none => simp
  | some v =>
    cases v with
    | obj kvs =>
      rcases decodeMembers_error kvs (r, none) (Or.inl rfl) with h | ⟨k, h⟩ <;> simp [h]
    | null => simp
    | bool b => simp
    | num l => simp
    | str t => simp
    | arr xs => simp

/-! ## C1: the dispatcher -/

/-- C1. For every finite sequence of updates, the goroutines `main` starts are
exactly the updates that carry a voice message (`Message` and `Message.Voice`
both non-nil), one per such update and in arrival order; the loop makes no
other call and touches no file; an update without a voice message leaves the
world as it was. -/
theorem main_starts_one_run_per_voice_update (updates : List Update) (w : World) :
    (mainLoop updates w).trace =
        w.trace ++ (updates.filter carriesVoice).map Event.goHandle ∧
      (∀ u : Update, carriesVoice u = true ↔ ∃ m v, u.Message = some m ∧ m.Voice = some v) ∧
      (mainLoop updates w).fs = w.fs ∧
      replies (mainLoop updates w).trace = replies w.trace ∧
      ∀ (w1 : World) (u : Update),
        (u.Message = none ∨ ∃ m, u.Message = some m ∧ m.Voice = none) → mainStep w1 u = w1 := by
  unfold mainLoop
  rw [foldl_mainStep]
  refine ⟨rfl, ?_, rfl, ?_, ?_⟩
  · intro u
    unfold carriesVoice
    cases hm : u.Message with
    | none => simp
    | some m => cases hv : m.Voice <;> simp [hv]
  · simp [replies, List.filterMap_append, List.filterMap_map]
  · intro w1 u h
    rw [mainStep_eq]
    have hc : carriesVoice u = false := by
      unfold carriesVoice
      rcases h with h | ⟨m, hm, hv⟩
      · simp [h]
      · simp [hm, hv]
    simp [hc]

/-! ## C8, C9: the transcoder -/

/-- C8. Whatever the input and whatever the outcome of creating the temp file,
of the copy and of the engine run, the files that exist after `convertFile`
returns are the files that existed before the call, with the same content; the
temp file `os.CreateTemp` made, a file that did not exist before, is not among
them. -/
theorem convertFile_leaves_no_temp_file (env : Env) (input : ReadCloser) (w : World) :
    (convertFile env input w).2.fs = w.fs ∧
      ∀ name, createTempLoop env w.fs 10000 0 = .ok name →
        (createTemp env w).2.fs = (name, "") :: w.fs ∧
        (∀ f ∈ w.fs, f.1 ≠ name) ∧
        ∀ f ∈ (convertFile env input w).2.fs, f.1 ≠ name := by
  refine ⟨convertFile_fs env input w, ?_⟩
  intro name hname
  have hfresh := createTempLoop_fresh env w.fs _ _ name hname
  refine ⟨?_, hfresh, ?_⟩
  · simp [createTemp, hname]
  · rw [convertFile_fs]
    exact hfresh

/-- C9. Every engine run `convertFile` makes has the output options exactly
`ar = 16000`, `ac = 1`, `f = ogg` and the output `pipe:`, whatever the input
is; when the temp file is created and the copy succeeds there is exactly one
such run, on the copied input; and a successful `convertFile` returns exactly
the bytes that run wrote, as a stream that ends cleanly. -/
theorem convertFile_runs_engine_mono_16k_ogg (env : Env) (input : ReadCloser) (w : World) :
    (engineRuns (convertFile env input w).2.trace = engineRuns w.trace ∨
      ∃ call, engineRuns (convertFile env input w).2.trace = engineRuns w.trace ++ [call] ∧
        call.kwargs = [("ar", "16000"), ("ac", "1"), ("f", "ogg")] ∧ call.output = "pipe:" ∧
        call.inputData = some input.data) ∧
    (∀ name, createTempLoop env w.fs 10000 0 = .ok name → env.writeErr name input.data = none →
      input.err = none →
      engineRuns (convertFile env input w).2.trace = engineRuns w.trace ++ [engineCall name input]) ∧
    (∀ r, (convertFile env input w).1.1 = some r →
      ∃ call, engineRuns (convertFile env input w).2.trace = engineRuns w.trace ++ [call] ∧
        call.kwargs = [("ar", "16000"), ("ac", "1"), ("f", "ogg")] ∧
        env.ffmpeg call = (r.data, none) ∧ r.err = none ∧ (convertFile env input w).1.2 = none) := by
  refine ⟨?_, ?_, ?_⟩
  · rcases convertFile_engineRuns env input w with h | ⟨name, h⟩
    · exact Or.inl h
    · exact Or.inr ⟨engineCall name input, h, rfl, rfl, rfl⟩
  · intro name hname hw hi
    have hlk := lookup_written w.fs name input.data
    unfold convertFile createTemp
    simp only [hname, convertFileBody, copyToFile, hw, hi, hlk]
    have hcall : FFmpegCall.mk name (some input.data) "pipe:" outputKwArgs =
        engineCall name input := rfl
    rw [hcall]
    rcases hff : env.ffmpeg (engineCall name input) with ⟨out, _ | e⟩ <;>
      simp [osRemove, World.emit, engineRuns, List.filterMap_append]
  · intro r hr
    rcases convertFile_cases env input w with ⟨e, hc⟩ | ⟨name, e, _, hc⟩ | ⟨name, hok, hc⟩
    · rw [hc] at hr; simp at hr
    · rw [hc] at hr; simp at hr
    · rw [hc] at hr
      simp only [Option.some.injEq] at hr
      refine ⟨engineCall name input, by rw [hc]; simp [engineRuns_emit], rfl, ?_, ?_, by rw [hc]⟩
      · rw [← hr]
        exact Prod.ext rfl hok
      · rw [← hr]

/-! ## C10: the two clients -/

/-- C10. The functions `getAudioText` and `getAudioTranslation` are the one
parameterized client `transcribe`, at (`distil-whisper-large-v3-en`, `en`) and
(`whisper-large-v3`, `pt`).  For every model and language, a request
`transcribe` sends is a POST to the same URL with the same `Authorization`
header and carries the five form parts `model`, `response_format = json`,
`language`, `temperature = 0` and the audio as the file part `file`; and when
the endpoint gives both clients the same response, both return the same
result, the one `readResponse` reads off that response. -/
theorem clients_are_one_parameterized_client (env : Env) (file : ReadCloser) (w : World) :
    getAudioText env file w = transcribe "distil-whisper-large-v3-en" "en" env file w ∧
    getAudioTranslation env file w = transcribe "whisper-large-v3" "pt" env file w ∧
    (∀ model language : String,
      uploads (transcribe model language env file w).2.trace = uploads w.trace ∨
      ∃ req, uploads (transcribe model language env file w).2.trace = uploads w.trace ++ [req] ∧
        req.method = "POST" ∧
        req.url = "https://api.groq.com/openai/v1/audio/transcriptions" ∧
        req.authorization = "bearer " ++ env.groqAPIKey ∧
        req.contentType = "multipart/form-data; boundary=" ++ env.boundary ∧
        req.form.Perm
          [Part.mk "model" none model, Part.mk "response_format" none "json",
           Part.mk "language" none language, Part.mk "temperature" none "0",
           Part.mk "file" (some "file.ogg") file.data]) ∧
    (∀ res : Response, file.err = none →
      (∀ req, req.url = "https://api.groq.com/openai/v1/audio/transcriptions" →
        env.httpDo req = .ok res) →
      (getAudioText env file w).1 = readResponse res ∧
      (getAudioTranslation env file w).1 = readResponse res) := by
  refine ⟨getAudioText_eq_transcribe env file w, getAudioTranslation_eq_transcribe env file w,
    ?_, ?_⟩
  · intro model language
    rcases transcribe_uploads model language env file w with h | h
    · exact Or.inl h
    · refine Or.inr ⟨_, h, rfl, rfl, rfl, rfl, ?_⟩
      exact (rangeOrder_perm env.mapSeed (formValues model language file)).map toPart
  · intro res hfile hdo
    rw [getAudioText_eq_transcribe, getAudioTranslation_eq_transcribe,
      transcribe_readable _ _ _ _ _ hfile, transcribe_readable _ _ _ _ _ hfile]
    constructor
    · simp only [hdo (uploadRequest env _) rfl]
    · simp only [hdo (uploadRequest env _) rfl]

/-! ## C3, C4, C5: the responses of the transcription endpoint -/

/-- C3. When the endpoint answers with a status other than 200 (so with every
status outside 200..299), status `c` and body `b`, `getAudioTranslation`
returns the empty text and the error `bad status (c): b`, whatever `b` is; and
a run of the pipeline against such an endpoint sends no reply and does not
return normally. -/
theorem bad_status_gives_upload_error_and_no_reply (env : Env) (file : ReadCloser) (w : World)
    (update : Update) (res : Response)
    (hfile : file.err = none)
    (hdo : ∀ req, req.url = transcriptionsURL → env.httpDo req = .ok res)
    (hbody : res.Body.err = none)
    (hstatus : res.StatusCode ≠ 200) :
    (getAudioTranslation env file w).1 =
        ("", some (GoError.errorf
          ("bad status (" ++ toString res.StatusCode ++ "): " ++ res.Body.data))) ∧
      replies (handleAudioUpdate env update w).2.trace = replies w.trace ∧
      (handleAudioUpdate env update w).1 ≠ Outcome.returned := by
  refine ⟨?_, ?_⟩
  · rw [getAudioTranslation_reads env file w res hfile hdo, readResponse_bad_status res hbody hstatus]
  · apply pipeline_no_reply
    intro f w1 hf
    exact ⟨_, by rw [getAudioTranslation_reads env f w1 res hf hdo,
      readResponse_bad_status res hbody hstatus]⟩

/-- The mocked endpoint answering status 500 with body `rate limited`: the
client fails with `bad status (500): rate limited` and no reply is sent. -/
theorem bad_status_gives_upload_error_and_no_reply_witness :
    (getAudioTranslation (mockEnv 200 "oga-sample" 500 "rate limited") pcmSample emptyWorld).1 =
        ("", some (GoError.errorf
          ("bad status (" ++ toString (500 : Int) ++ "): " ++ "rate limited"))) ∧
      replies (handleAudioUpdate (mockEnv 200 "oga-sample" 500 "rate limited") voiceUpdate
        emptyWorld).2.trace = replies emptyWorld.trace ∧
      (handleAudioUpdate (mockEnv 200 "oga-sample" 500 "rate limited") voiceUpdate
        emptyWorld).1 ≠ Outcome.returned :=
  bad_status_gives_upload_error_and_no_reply (mockEnv 200 "oga-sample" 500 "rate limited")
    pcmSample emptyWorld voiceUpdate (Response.mk 500 (ReadCloser.mk "rate limited" none))
    rfl (fun _ _ => rfl) rfl (by decide)

/-- C4, as stated, fails: the mocked endpoint answering status 201 (inside
200..299) with the body `{"text":"hello"}` makes `getAudioTranslation` return
the empty text and the error `bad status (201): {"text":"hello"}`, not `hello`. -/
theorem status_201_is_rejected :
    (getAudioTranslation (mockEnv 200 "oga-sample" 201 "\x7b\"text\":\"hello\"\x7d")
        pcmSample emptyWorld).1 =
      ("", some (GoError.errorf "bad status (201): \x7b\"text\":\"hello\"\x7d")) ∧
    ¬ ∀ (env : Env) (file : ReadCloser) (w : World) (res : Response)
        (kvs : List (String × JSON)) (s : String),
        file.err = none →
        (∀ req, req.url = transcriptionsURL → env.httpDo req = .ok res) →
        res.Body.err = none →
        200 ≤ res.StatusCode → res.StatusCode ≤ 299 →
        parseJSON res.Body.data = some (.obj kvs) →
        kvs.filter (fun kv => kv.1 = "text") = [("text", JSON.str s)] →
        (getAudioTranslation env file w).1 = (s, none) := by
  have heval : (getAudioTranslation (mockEnv 200 "oga-sample" 201 "\x7b\"text\":\"hello\"\x7d")
        pcmSample emptyWorld).1 =
      ("", some (GoError.errorf "bad status (201): \x7b\"text\":\"hello\"\x7d")) := by decide
  refine ⟨heval, ?_⟩
  intro h
  have h1 := h (mockEnv 200 "oga-sample" 201 "\x7b\"text\":\"hello\"\x7d") pcmSample emptyWorld
    (Response.mk 201 (ReadCloser.mk "\x7b\"text\":\"hello\"\x7d" none))
    [("text", JSON.str "hello")] "hello" rfl (fun _ _ => rfl) rfl (by decide) (by decide)
    (by rfl) (by rfl)
  rw [heval] at h1
  exact absurd h1 (by decide)

/-- C4, amended. The client raises the bad-status error only for responses
whose status is not 200: a response with status exactly 200 never gives that
error, and when its body is a JSON object with a member `text` holding the
string `s` and no other member whose name equals `text` up to letter case,
`getAudioTranslation` returns `s` and no error. -/
theorem status_200_with_text_returns_text (env : Env) (file : ReadCloser) (w : World)
    (res : Response)
    (hfile : file.err = none)
    (hdo : ∀ req, req.url = transcriptionsURL → env.httpDo req = .ok res)
    (hbody : res.Body.err = none)
    (hstatus : res.StatusCode = 200) :
    (∀ msg, (getAudioTranslation env file w).1.2 ≠ some (GoError.errorf msg)) ∧
    (∀ kvs s, parseJSON res.Body.data = some (.obj kvs) →
      kvs.filter (fun kv => matchesTextField kv.1) = [("text", JSON.str s)] →
      (getAudioTranslation env file w).1 = (s, none)) := by
  refine ⟨?_, ?_⟩
  · intro msg
    rw [getAudioTranslation_reads env file w res hfile hdo, readResponse_ok res hbody hstatus]
    have herr := jsonUnmarshal_error res.Body.data (TextResponse.mk "") msg
    rcases hj : jsonUnmarshal res.Body.data (TextResponse.mk "") with ⟨r, _ | e⟩
    · simp
    · rw [hj] at herr
      simpa using herr
  · intro kvs s hparse hone
    rw [getAudioTranslation_reads env file w res hfile hdo, readResponse_ok res hbody hstatus,
      jsonUnmarshal_single _ kvs "text" s _ hparse hone]

/-- The mocked endpoint answering status 200 with `{"text": "hello"}`: the
client returns exactly `hello`. -/
theorem status_200_with_text_returns_text_witness :
    (getAudioTranslation (mockEnv 200 "oga-sample" 200 "\x7b\"text\": \"hello\"\x7d")
        pcmSample emptyWorld).1 = ("hello", none) :=
  (status_200_with_text_returns_text (mockEnv 200 "oga-sample" 200 "\x7b\"text\": \"hello\"\x7d")
    pcmSample emptyWorld (Response.mk 200 (ReadCloser.mk "\x7b\"text\": \"hello\"\x7d" none))
    rfl (fun _ _ => rfl) rfl rfl).2 [("text", JSON.str "hello")] "hello" (by rfl) (by rfl)

/-- C5, as stated, fails: the mocked endpoint answering status 200 with the
body `{}` (valid JSON without a `text` member) makes `getAudioTranslation`
return the empty text with a nil error, and the pipeline replies with the
empty text. -/
theorem empty_object_is_not_a_parse_error :
    (getAudioTranslation (mockEnv 200 "oga-sample" 200 "\x7b\x7d") pcmSample emptyWorld).1 =
      ("", none) ∧
    replies (handleAudioUpdate (mockEnv 200 "oga-sample" 200 "\x7b\x7d") voiceUpdate
      emptyWorld).2.trace = [(1, "")] ∧
    ¬ ∀ (env : Env) (file : ReadCloser) (w : World) (res : Response),
        file.err = none →
        (∀ req, req.url = transcriptionsURL → env.httpDo req = .ok res) →
        res.Body.err = none →
        res.StatusCode = 200 →
        (parseJSON res.Body.data = none ∨
          ∃ kvs, parseJSON res.Body.data = some (.obj kvs) ∧ ∀ kv ∈ kvs, kv.1 ≠ "text") →
        ∃ e, (getAudioTranslation env file w).1 = ("", some e) := by
  have heval : (getAudioTranslation (mockEnv 200 "oga-sample" 200 "\x7b\x7d") pcmSample
      emptyWorld).1 = ("", none) := by decide
  refine ⟨heval, by decide, ?_⟩
  intro h
  obtain ⟨e, he⟩ := h (mockEnv 200 "oga-sample" 200 "\x7b\x7d") pcmSample emptyWorld
    (Response.mk 200 (ReadCloser.mk "\x7b\x7d" none)) rfl (fun _ _ => rfl) rfl rfl
    (Or.inr ⟨[], by rfl, by simp⟩)
  rw [heval] at he
  simp at he

/-- C5, amended. For every response with status 200: when the body is not
valid JSON, `getAudioTranslation` fails with a JSON syntax error and returns
the empty text, and the pipeline sends no reply; when the body is a valid JSON
value other than an object or `null`, it fails with a JSON type error in the
same way; when the body is a JSON object with no member whose name equals
`text` up to letter case (for example `{}`), it returns the empty text and a
nil error. -/
theorem body_without_transcript (env : Env) (file : ReadCloser) (w : World) (update : Update)
    (res : Response)
    (hfile : file.err = none)
    (hdo : ∀ req, req.url = transcriptionsURL → env.httpDo req = .ok res)
    (hbody : res.Body.err = none)
    (hstatus : res.StatusCode = 200) :
    (parseJSON res.Body.data = none →
      (getAudioTranslation env file w).1 = ("", some GoError.jsonSyntax) ∧
      replies (handleAudioUpdate env update w).2.trace = replies w.trace ∧
      (handleAudioUpdate env update w).1 ≠ Outcome.returned) ∧
    (∀ v, parseJSON res.Body.data = some v → (∀ kvs, v ≠ JSON.obj kvs) → v ≠ JSON.null →
      (getAudioTranslation env file w).1 = ("", some (GoError.jsonType v.kind)) ∧
      replies (handleAudioUpdate env update w).2.trace = replies w.trace ∧
      (handleAudioUpdate env update w).1 ≠ Outcome.returned) ∧
    (∀ kvs, parseJSON res.Body.data = some (.obj kvs) →
      (∀ kv ∈ kvs, matchesTextField kv.1 = false) →
      (getAudioTranslation env file w).1 = ("", none)) := by
  refine ⟨?_, ?_, ?_⟩
  · intro hparse
    have hres : readResponse res = ("", some GoError.jsonSyntax) := by
      rw [readResponse_ok res hbody hstatus, jsonUnmarshal_invalid _ _ hparse]
    refine ⟨by rw [getAudioTranslation_reads env file w res hfile hdo, hres], ?_⟩
    apply pipeline_no_reply
    intro f w1 hf
    exact ⟨_, by rw [getAudioTranslation_reads env f w1 res hf hdo, hres]⟩
  · intro v hparse hobj hnull
    have hres : readResponse res = ("", some (GoError.jsonType v.kind)) := by
      rw [readResponse_ok res hbody hstatus, jsonUnmarshal_not_object _ _ v hparse hobj hnull]
    refine ⟨by rw [getAudioTranslation_reads env file w res hfile hdo, hres], ?_⟩
    apply pipeline_no_reply
    intro f w1 hf
    exact ⟨_, by rw [getAudioTranslation_reads env f w1 res hf hdo, hres]⟩
  · intro kvs hparse habsent
    have hnone : kvs.filter (fun kv => matchesTextField kv.1) = [] := by
      rw [List.filter_eq_nil_iff]
      intro kv hkv
      simp [habsent kv hkv]
    rw [getAudioTranslation_reads env file w res hfile hdo, readResponse_ok res hbody hstatus,
      jsonUnmarshal_absent _ kvs _ hparse hnone]

/-- The mocked endpoint answering status 200 with the body `rate limited`
(not JSON), with the body `"rate limited"` (a JSON string), and with `{}`. -/
theorem body_without_transcript_witness :
    ((getAudioTranslation (mockEnv 200 "oga-sample" 200 "rate limited") pcmSample emptyWorld).1 =
        ("", some GoError.jsonSyntax) ∧
      replies (handleAudioUpdate (mockEnv 200 "oga-sample" 200 "rate limited") voiceUpdate
        emptyWorld).2.trace = replies emptyWorld.trace ∧
      (handleAudioUpdate (mockEnv 200 "oga-sample" 200 "rate limited") voiceUpdate
        emptyWorld).1 ≠ Outcome.returned) ∧
    (getAudioTranslation (mockEnv 200 "oga-sample" 200 "\"rate limited\"") pcmSample
        emptyWorld).1 = ("", some (GoError.jsonType "string")) ∧
    (getAudioTranslation (mockEnv 200 "oga-sample" 200 "\x7b\x7d") pcmSample emptyWorld).1 =
        ("", none) :=
  ⟨(body_without_transcript (mockEnv 200 "oga-sample" 200 "rate limited") pcmSample emptyWorld
      voiceUpdate (Response.mk 200 (ReadCloser.mk "rate limited" none))
      rfl (fun _ _ => rfl) rfl rfl).1 (by rfl),
   ((body_without_transcript (mockEnv 200 "oga-sample" 200 "\"rate limited\"") pcmSample
      emptyWorld voiceUpdate (Response.mk 200 (ReadCloser.mk "\"rate limited\"" none))
      rfl (fun _ _ => rfl) rfl rfl).2.1 (JSON.str "rate limited") (by rfl)
      (fun _ h => JSON.noConfusion h) (fun h => JSON.noConfusion h)).1,
   (body_without_transcript (mockEnv 200 "oga-sample" 200 "\x7b\x7d") pcmSample emptyWorld
      voiceUpdate (Response.mk 200 (ReadCloser.mk "\x7b\x7d" none))
      rfl (fun _ _ => rfl) rfl rfl).2.2 [] (by rfl) (by simp)⟩

/-! ## C2: the reply -/

/-- C2, as stated, fails: the mocked endpoint answering status 200 with the
body `{"text":"bom dia","Text":"boa noite"}`, a JSON object whose member `text`
is the string `bom dia`.  Decoding matches member names to the field without
regard to letter case and the later member overwrites the earlier one, so the
one reply sent to chat 1 has the text `boa noite`. -/
theorem later_member_overwrites_text :
    parseJSON "\x7b\"text\":\"bom dia\",\"Text\":\"boa noite\"\x7d" =
      some (.obj [("text", JSON.str "bom dia"), ("Text", JSON.str "boa noite")]) ∧
    replies (handleAudioUpdate
      (mockEnv 200 "oga-sample" 200 "\x7b\"text\":\"bom dia\",\"Text\":\"boa noite\"\x7d")
      voiceUpdate emptyWorld).2.trace = [(1, "boa noite")] ∧
    ¬ ∀ (env : Env) (update : Update) (w : World) (message : Message) (voice : Voice)
        (chat : Chat) (file : File) (fileRes res : Response) (kvs : List (String × JSON))
        (s : String),
        update.Message = some message → message.Voice = some voice →
        message.Chat = some chat →
        env.getFile voice.FileID = .ok file →
        env.httpGet (file.Link env.botToken) = .ok fileRes →
        (convertFile env fileRes.Body w).1.2 = none →
        (∀ req, req.url = transcriptionsURL → env.httpDo req = .ok res) →
        res.Body.err = none →
        res.StatusCode = 200 →
        parseJSON res.Body.data = some (.obj kvs) →
        kvs.filter (fun kv => kv.1 = "text") = [("text", JSON.str s)] →
        replies (handleAudioUpdate env update w).2.trace = replies w.trace ++ [(chat.ID, s)] := by
  have heval : replies (handleAudioUpdate
      (mockEnv 200 "oga-sample" 200 "\x7b\"text\":\"bom dia\",\"Text\":\"boa noite\"\x7d")
      voiceUpdate emptyWorld).2.trace = [(1, "boa noite")] := by decide
  refine ⟨by rfl, heval, ?_⟩
  intro h
  have h1 := h (mockEnv 200 "oga-sample" 200 "\x7b\"text\":\"bom dia\",\"Text\":\"boa noite\"\x7d")
    voiceUpdate emptyWorld (Message.mk (some (Chat.mk 1)) (some (Voice.mk "F1"))) (Voice.mk "F1")
    (Chat.mk 1) (File.mk "F1" "voice/file_1.oga")
    (Response.mk 200 (ReadCloser.mk "oga-sample" none))
    (Response.mk 200 (ReadCloser.mk "\x7b\"text\":\"bom dia\",\"Text\":\"boa noite\"\x7d" none))
    [("text", JSON.str "bom dia"), ("Text", JSON.str "boa noite")] "bom dia"
    rfl rfl rfl rfl rfl (by decide) (fun _ _ => rfl) rfl rfl (by rfl) (by rfl)
  rw [heval] at h1
  exact absurd h1 (by decide)

/-- C2, amended. For every voice message in chat C and every string `s`: if
the file reference resolves, the download returns a response, `convertFile`
succeeds on its body, and the endpoint answers with status 200 and a JSON
object with a member `text` holding the string `s` and no other member whose
name equals `text` up to letter case, then `handleAudioUpdate` makes exactly
one upload and exactly one `bot.Send`, to chat C with the text `s` unchanged;
the run returns normally when that send is accepted. -/
theorem voice_message_gets_the_transcript (env : Env) (update : Update) (w : World)
    (message : Message) (voice : Voice) (chat : Chat) (file : File) (fileRes res : Response)
    (kvs : List (String × JSON)) (s : String)
    (hm : update.Message = some message) (hv : message.Voice = some voice)
    (hchat : message.Chat = some chat)
    (hgf : env.getFile voice.FileID = .ok file)
    (hget : env.httpGet (file.Link env.botToken) = .ok fileRes)
    (hconv : (convertFile env fileRes.Body w).1.2 = none)
    (hdo : ∀ req, req.url = transcriptionsURL → env.httpDo req = .ok res)
    (hbody : res.Body.err = none)
    (hstatus : res.StatusCode = 200)
    (hparse : parseJSON res.Body.data = some (.obj kvs))
    (hone : kvs.filter (fun kv => matchesTextField kv.1) = [("text", JSON.str s)]) :
    replies (handleAudioUpdate env update w).2.trace = replies w.trace ++ [(chat.ID, s)] ∧
      (∃ req, uploads (handleAudioUpdate env update w).2.trace = uploads w.trace ++ [req]) ∧
      (env.send chat.ID s = none → (handleAudioUpdate env update w).1 = Outcome.returned) := by
  have hconv3 : (convertFile env fileRes.Body (afterDownload env voice file w)).1.2 = none := by
    rw [convertFile_result_congr env fileRes.Body _ w (afterDownload_fs env voice file w)]
    exact hconv
  obtain ⟨name, _, hc⟩ := convertFile_success env fileRes.Body _ hconv3
  have hres : ∀ w4, (getAudioTranslation env
      (ReadCloser.mk (env.ffmpeg (engineCall name fileRes.Body)).1 none) w4).1 = (s, none) := by
    intro w4
    rw [getAudioTranslation_reads env _ w4 res rfl hdo, readResponse_ok res hbody hstatus,
      jsonUnmarshal_single _ kvs "text" s _ hparse hone]
  obtain ⟨req, hw5⟩ := getAudioTranslation_readable_world env
    (ReadCloser.mk (env.ffmpeg (engineCall name fileRes.Body)).1 none)
    ((afterDownload env voice file w).emit (.ffmpegRun (engineCall name fileRes.Body))) rfl
  have hrun := run_reply env update w
    ((afterDownload env voice file w).emit (.ffmpegRun (engineCall name fileRes.Body)))
    (((afterDownload env voice file w).emit (.ffmpegRun (engineCall name fileRes.Body))).emit
      (.httpDo req))
    message voice chat file fileRes _ s hm hv hchat hgf hget hc (Prod.ext (hres _) hw5)
  rw [hrun]
  cases hs : env.send chat.ID s with
  | none =>
    simp [replies_emit, uploads_emit, afterDownload_replies, afterDownload_uploads]
  | some e =>
    simp [replies_emit, uploads_emit, afterDownload_replies, afterDownload_uploads]

/-- The end-to-end scenario: file reference `F1` in chat 1, download
`oga-sample`, engine output `pcm-sample`, endpoint answer `{"text":"bom dia"}`:
exactly one reply, to chat 1, with the text `bom dia`. -/
theorem voice_message_gets_the_transcript_witness :
    replies (handleAudioUpdate (mockEnv 200 "oga-sample" 200 "\x7b\"text\":\"bom dia\"\x7d")
        voiceUpdate emptyWorld).2.trace = replies emptyWorld.trace ++ [((Chat.mk 1).ID, "bom dia")] ∧
      (∃ req, uploads (handleAudioUpdate
        (mockEnv 200 "oga-sample" 200 "\x7b\"text\":\"bom dia\"\x7d")
        voiceUpdate emptyWorld).2.trace = uploads emptyWorld.trace ++ [req]) ∧
      ((mockEnv 200 "oga-sample" 200 "\x7b\"text\":\"bom dia\"\x7d").send (Chat.mk 1).ID "bom dia"
          = none →
        (handleAudioUpdate (mockEnv 200 "oga-sample" 200 "\x7b\"text\":\"bom dia\"\x7d")
          voiceUpdate emptyWorld).1 = Outcome.returned) :=
  voice_message_gets_the_transcript (mockEnv 200 "oga-sample" 200 "\x7b\"text\":\"bom dia\"\x7d")
    voiceUpdate emptyWorld (Message.mk (some (Chat.mk 1)) (some (Voice.mk "F1"))) (Voice.mk "F1")
    (Chat.mk 1) (File.mk "F1" "voice/file_1.oga")
    (Response.mk 200 (ReadCloser.mk "oga-sample" none))
    (Response.mk 200 (ReadCloser.mk "\x7b\"text\":\"bom dia\"\x7d" none))
    [("text", JSON.str "bom dia")] "bom dia"
    rfl rfl rfl rfl rfl (by decide) (fun _ _ => rfl) rfl rfl (by rfl) (by rfl)

/-! ## C6: the download -/

/-- C6, as stated, fails: when the download answers status 404 with the body
`404 page not found`, `handleAudioUpdate` does not stop at the download step.
The body is copied to the temp file and the engine is run on it; the run ends
in `log.Fatalf` only because the engine rejects that input, under the label
`convertFile`. -/
theorem download_404_reaches_the_transcoder :
    (handleAudioUpdate (mockEnv 404 "404 page not found" 200 "\x7b\"text\":\"bom dia\"\x7d")
      voiceUpdate emptyWorld).2.trace =
      [.getFile "F1",
       .logPrintf "file link: https://api.telegram.org/file/botTOKEN/voice/file_1.oga",
       .httpGet "https://api.telegram.org/file/botTOKEN/voice/file_1.oga",
       .ffmpegRun (FFmpegCall.mk "/tmp/input0.oga" (some "404 page not found") "pipe:"
         [("ar", "16000"), ("ac", "1"), ("f", "ogg")]),
       .logFatalf "convertFile" (.errorf "ffmpeg conversion failed: exit status 1")] ∧
    ¬ ∀ (env : Env) (update : Update) (w : World) (message : Message) (voice : Voice)
        (file : File) (fileRes : Response),
        update.Message = some message → message.Voice = some voice →
        env.getFile voice.FileID = .ok file →
        env.httpGet (file.Link env.botToken) = .ok fileRes →
        (fileRes.StatusCode < 200 ∨ 299 < fileRes.StatusCode) →
        engineRuns (handleAudioUpdate env update w).2.trace = engineRuns w.trace ∧
        uploads (handleAudioUpdate env update w).2.trace = uploads w.trace ∧
        replies (handleAudioUpdate env update w).2.trace = replies w.trace := by
  have heval : (handleAudioUpdate
      (mockEnv 404 "404 page not found" 200 "\x7b\"text\":\"bom dia\"\x7d")
      voiceUpdate emptyWorld).2.trace =
      [.getFile "F1",
       .logPrintf "file link: https://api.telegram.org/file/botTOKEN/voice/file_1.oga",
       .httpGet "https://api.telegram.org/file/botTOKEN/voice/file_1.oga",
       .ffmpegRun (FFmpegCall.mk "/tmp/input0.oga" (some "404 page not found") "pipe:"
         [("ar", "16000"), ("ac", "1"), ("f", "ogg")]),
       .logFatalf "convertFile" (.errorf "ffmpeg conversion failed: exit status 1")] := by
    decide
  refine ⟨heval, ?_⟩
  intro h
  have h1 := (h (mockEnv 404 "404 page not found" 200 "\x7b\"text\":\"bom dia\"\x7d")
    voiceUpdate emptyWorld (Message.mk (some (Chat.mk 1)) (some (Voice.mk "F1"))) (Voice.mk "F1")
    (File.mk "F1" "voice/file_1.oga")
    (Response.mk 404 (ReadCloser.mk "404 page not found" none))
    rfl rfl rfl rfl (Or.inr (by decide))).1
  rw [heval] at h1
  exact absurd h1 (by decide)

/-- C6, amended. For every voice update whose file reference resolves: when
the download returns a transport error, `handleAudioUpdate` ends in
`log.Fatalf` at the download step, `convertFile` is not run, the transcription
client is not called and no reply is sent; when the download returns a
response, its status code is not looked at: once the temp file is created and
the copy succeeds, the engine is run on that response's body, whatever the
status. -/
theorem download_fails_only_on_transport_error (env : Env) (update : Update) (w : World)
    (message : Message) (voice : Voice) (file : File)
    (hm : update.Message = some message) (hv : message.Voice = some voice)
    (hgf : env.getFile voice.FileID = .ok file) :
    (∀ e, env.httpGet (file.Link env.botToken) = .error e →
      handleAudioUpdate env update w =
        (Outcome.fatal,
          (afterDownload env voice file w).emit (.logFatalf "http.Get(fileLink)" (.ext e))) ∧
      engineRuns (handleAudioUpdate env update w).2.trace = engineRuns w.trace ∧
      uploads (handleAudioUpdate env update w).2.trace = uploads w.trace ∧
      replies (handleAudioUpdate env update w).2.trace = replies w.trace ∧
      (handleAudioUpdate env update w).2.fs = w.fs) ∧
    (∀ fileRes name, env.httpGet (file.Link env.botToken) = .ok fileRes →
      createTempLoop env w.fs 10000 0 = .ok name →
      env.writeErr name fileRes.Body.data = none → fileRes.Body.err = none →
      engineRuns (handleAudioUpdate env update w).2.trace =
        engineRuns w.trace ++ [engineCall name fileRes.Body]) := by
  refine ⟨?_, ?_⟩
  · intro e hget
    have hrun := run_download_error env update w message voice file e hm hv hgf hget
    refine ⟨hrun, ?_, ?_, ?_, ?_⟩
    · rw [hrun]; simp [engineRuns_emit, afterDownload_engineRuns]
    · rw [hrun]; simp [uploads_emit, afterDownload_uploads]
    · rw [hrun]; simp [replies_emit, afterDownload_replies]
    · rw [hrun]; rfl
  · intro fileRes name hget hname hw hi
    have hc := convertFile_copied env fileRes.Body (afterDownload env voice file w) name
      (by rw [afterDownload_fs]; exact hname) hw hi
    rcases hff : env.ffmpeg (engineCall name fileRes.Body) with ⟨out, _ | e⟩
    · rw [hff] at hc
      obtain ⟨req, hw5⟩ := getAudioTranslation_readable_world env (ReadCloser.mk out none)
        ((afterDownload env voice file w).emit (.ffmpegRun (engineCall name fileRes.Body))) rfl
      rcases hres : (getAudioTranslation env (ReadCloser.mk out none)
        ((afterDownload env voice file w).emit (.ffmpegRun (engineCall name fileRes.Body)))).1
        with ⟨t, _ | e⟩
      · cases hchat : message.Chat with
        | none =>
          rw [run_no_chat env update w ((afterDownload env voice file w).emit (.ffmpegRun (engineCall name fileRes.Body)))
            (((afterDownload env voice file w).emit (.ffmpegRun (engineCall name fileRes.Body))).emit
            (.httpDo req)) message voice file fileRes _ t hm hv hchat hgf hget hc
            (Prod.ext hres hw5)]
          simp [engineRuns_emit, afterDownload_engineRuns]
        | some chat =>
          rw [run_reply env update w ((afterDownload env voice file w).emit (.ffmpegRun (engineCall name fileRes.Body)))
            (((afterDownload env voice file w).emit (.ffmpegRun (engineCall name fileRes.Body))).emit
            (.httpDo req)) message voice chat file fileRes _ t hm hv hchat
            hgf hget hc (Prod.ext hres hw5)]
          cases hs : env.send chat.ID t <;>
            simp [engineRuns_emit, afterDownload_engineRuns]
      · rw [run_client_error env update w ((afterDownload env voice file w).emit (.ffmpegRun (engineCall name fileRes.Body)))
            (((afterDownload env voice file w).emit (.ffmpegRun (engineCall name fileRes.Body))).emit
            (.httpDo req)) message voice file fileRes _ t e hm hv hgf hget hc
          (Prod.ext hres hw5)]
        simp [engineRuns_emit, afterDownload_engineRuns]
    · rw [hff] at hc
      rw [run_convert_error env update w _ message voice file fileRes _ _ hm hv hgf hget hc]
      simp [engineRuns_emit, afterDownload_engineRuns]

/-- The download failing in transport, and the download answering status 404
with a body the copy accepts. -/
theorem download_fails_only_on_transport_error_witness :
    (handleAudioUpdate offlineEnv voiceUpdate emptyWorld =
        (Outcome.fatal,
          (afterDownload offlineEnv (Voice.mk "F1") (File.mk "F1" "voice/file_1.oga")
            emptyWorld).emit (.logFatalf "http.Get(fileLink)" (.ext "i/o timeout"))) ∧
      engineRuns (handleAudioUpdate offlineEnv voiceUpdate emptyWorld).2.trace =
        engineRuns emptyWorld.trace ∧
      uploads (handleAudioUpdate offlineEnv voiceUpdate emptyWorld).2.trace =
        uploads emptyWorld.trace ∧
      replies (handleAudioUpdate offlineEnv voiceUpdate emptyWorld).2.trace =
        replies emptyWorld.trace ∧
      (handleAudioUpdate offlineEnv voiceUpdate emptyWorld).2.fs = emptyWorld.fs) ∧
    engineRuns (handleAudioUpdate
        (mockEnv 404 "404 page not found" 200 "\x7b\"text\":\"bom dia\"\x7d")
        voiceUpdate emptyWorld).2.trace =
      engineRuns emptyWorld.trace ++
        [engineCall "/tmp/input0.oga" (ReadCloser.mk "404 page not found" none)] :=
  ⟨(download_fails_only_on_transport_error offlineEnv voiceUpdate emptyWorld
      (Message.mk (some (Chat.mk 1)) (some (Voice.mk "F1"))) (Voice.mk "F1")
      (File.mk "F1" "voice/file_1.oga") rfl rfl rfl).1 "i/o timeout" rfl,
   (download_fails_only_on_transport_error
      (mockEnv 404 "404 page not found" 200 "\x7b\"text\":\"bom dia\"\x7d") voiceUpdate emptyWorld
      (Message.mk (some (Chat.mk 1)) (some (Voice.mk "F1"))) (Voice.mk "F1")
      (File.mk "F1" "voice/file_1.oga") rfl rfl rfl).2
      (Response.mk 404 (ReadCloser.mk "404 page not found" none)) "/tmp/input0.oga"
      rfl (by rfl) rfl rfl⟩

/-! ## C7: order and fail-fast -/

/-- C7. For every voice update, the steps of `handleAudioUpdate` run in the
order resolve, download, transcode, transcribe, reply, and the run stops at the
first step that returns an error: what it has done is an initial part of that
order, all five steps when it returns, and a run that ends in `log.Fatalf` has
the fatal log line as its last event.  Step by step: an error of `GetFile` ends
the run after resolve; an error of the download ends it after download; an
error of `convertFile` (corrupt or empty input, say) ends it with no upload and
no reply; an error of the transcription client ends it with no reply; an error
of `bot.Send` ends it after the reply call.  Each of these runs ends in the
fatal state. -/
theorem pipeline_is_ordered_and_fail_fast (env : Env) (update : Update) (w : World)
    (message : Message) (voice : Voice)
    (hm : update.Message = some message) (hv : message.Voice = some voice) :
    (∃ n, steps (handleAudioUpdate env update w).2.trace = steps w.trace ++ stepOrder.take n) ∧
    ((handleAudioUpdate env update w).1 = Outcome.returned →
      steps (handleAudioUpdate env update w).2.trace = steps w.trace ++ stepOrder) ∧
    ((handleAudioUpdate env update w).1 = Outcome.fatal →
      ∃ pfx e, (handleAudioUpdate env update w).2.trace.getLast? = some (.logFatalf pfx e)) ∧
    (∀ e, env.getFile voice.FileID = .error e →
      (handleAudioUpdate env update w).1 = Outcome.fatal ∧
      steps (handleAudioUpdate env update w).2.trace = steps w.trace ++ [Step.resolve] ∧
      (handleAudioUpdate env update w).2.trace.getLast? =
        some (.logFatalf "GetFile" (.ext e))) ∧
    (∀ file e, env.getFile voice.FileID = .ok file →
      env.httpGet (file.Link env.botToken) = .error e →
      (handleAudioUpdate env update w).1 = Outcome.fatal ∧
      steps (handleAudioUpdate env update w).2.trace =
        steps w.trace ++ [Step.resolve, Step.download] ∧
      (handleAudioUpdate env update w).2.trace.getLast? =
        some (.logFatalf "http.Get(fileLink)" (.ext e))) ∧
    (∀ file fileRes e, env.getFile voice.FileID = .ok file →
      env.httpGet (file.Link env.botToken) = .ok fileRes →
      (convertFile env fileRes.Body w).1.2 = some e →
      (handleAudioUpdate env update w).1 = Outcome.fatal ∧
      uploads (handleAudioUpdate env update w).2.trace = uploads w.trace ∧
      replies (handleAudioUpdate env update w).2.trace = replies w.trace ∧
      (steps (handleAudioUpdate env update w).2.trace =
          steps w.trace ++ [Step.resolve, Step.download] ∨
        steps (handleAudioUpdate env update w).2.trace =
          steps w.trace ++ [Step.resolve, Step.download, Step.transcode]) ∧
      (handleAudioUpdate env update w).2.trace.getLast? = some (.logFatalf "convertFile" e)) ∧
    (∀ file fileRes cf e, env.getFile voice.FileID = .ok file →
      env.httpGet (file.Link env.botToken) = .ok fileRes →
      (convertFile env fileRes.Body w).1 = (some cf, none) →
      (getAudioTranslation env cf w).1.2 = some e →
      (handleAudioUpdate env update w).1 = Outcome.fatal ∧
      replies (handleAudioUpdate env update w).2.trace = replies w.trace ∧
      steps (handleAudioUpdate env update w).2.trace =
        steps w.trace ++ [Step.resolve, Step.download, Step.transcode, Step.transcribe] ∧
      (handleAudioUpdate env update w).2.trace.getLast? = some (.logFatalf "upload audio" e)) ∧
    (∀ file fileRes cf t chat e, env.getFile voice.FileID = .ok file →
      env.httpGet (file.Link env.botToken) = .ok fileRes →
      (convertFile env fileRes.Body w).1 = (some cf, none) →
      (getAudioTranslation env cf w).1 = (t, none) →
      message.Chat = some chat →
      env.send chat.ID t = some e →
      (handleAudioUpdate env update w).1 = Outcome.fatal ∧
      replies (handleAudioUpdate env update w).2.trace = replies w.trace ++ [(chat.ID, t)] ∧
      steps (handleAudioUpdate env update w).2.trace = steps w.trace ++ stepOrder ∧
      (handleAudioUpdate env update w).2.trace.getLast? =
        some (.logFatalf "bot.Send" (.ext e))) := by
  refine ⟨?_, ?_, ?_, ?_, ?_, ?_, ?_, ?_⟩
  · rcases run_shape env update w message voice hm hv with
      ⟨e, h⟩ | ⟨l, u, e, h⟩ | ⟨l, u, e, h⟩ | ⟨l, u, c, e, h⟩ | ⟨l, u, c, r, e, h⟩ |
      ⟨l, u, c, r, _, h⟩ | ⟨l, u, c, r, chat, t, e, _, h⟩ | ⟨l, u, c, r, chat, t, _, h⟩
    · exact ⟨1, by rw [h]; simp [steps, stepOf, stepOrder, List.filterMap_append]⟩
    · exact ⟨2, by rw [h]; simp [steps, stepOf, stepOrder, List.filterMap_append]⟩
    · exact ⟨2, by rw [h]; simp [steps, stepOf, stepOrder, List.filterMap_append]⟩
    · exact ⟨3, by rw [h]; simp [steps, stepOf, stepOrder, List.filterMap_append]⟩
    · exact ⟨4, by rw [h]; simp [steps, stepOf, stepOrder, List.filterMap_append]⟩
    · exact ⟨4, by rw [h]; simp [steps, stepOf, stepOrder, List.filterMap_append]⟩
    · exact ⟨5, by rw [h]; simp [steps, stepOf, stepOrder, List.filterMap_append]⟩
    · exact ⟨5, by rw [h]; simp [steps, stepOf, stepOrder, List.filterMap_append]⟩
  · rcases run_shape env update w message voice hm hv with
      ⟨e, h⟩ | ⟨l, u, e, h⟩ | ⟨l, u, e, h⟩ | ⟨l, u, c, e, h⟩ | ⟨l, u, c, r, e, h⟩ |
      ⟨l, u, c, r, _, h⟩ | ⟨l, u, c, r, chat, t, e, _, h⟩ | ⟨l, u, c, r, chat, t, _, h⟩ <;>
      rw [h] <;> simp [steps, stepOf, stepOrder, List.filterMap_append]
  · rcases run_shape env update w message voice hm hv with
      ⟨e, h⟩ | ⟨l, u, e, h⟩ | ⟨l, u, e, h⟩ | ⟨l, u, c, e, h⟩ | ⟨l, u, c, r, e, h⟩ |
      ⟨l, u, c, r, _, h⟩ | ⟨l, u, c, r, chat, t, e, _, h⟩ | ⟨l, u, c, r, chat, t, _, h⟩ <;>
      rw [h] <;> simp
  · intro e hgf
    rw [run_resolve_error env update w message voice e hm hv hgf]
    simp [steps_emit, stepOf, emit_getLast]
  · intro file e hgf hget
    rw [run_download_error env update w message voice file e hm hv hgf hget]
    simp [steps_emit, stepOf, emit_getLast, afterDownload_steps]
  · intro file fileRes e hgf hget hce
    have h3 : (convertFile env fileRes.Body (afterDownload env voice file w)).1.2 = some e := by
      rw [convertFile_result_congr env fileRes.Body _ w (afterDownload_fs env voice file w)]
      exact hce
    rcases convertFile_failure env fileRes.Body _ e h3 with hc | ⟨name, hc⟩
    · rw [run_convert_error env update w (afterDownload env voice file w) message voice file fileRes
        none e hm hv hgf hget hc]
      simp [steps_emit, uploads_emit, replies_emit, stepOf, emit_getLast, afterDownload_steps,
        afterDownload_uploads, afterDownload_replies]
    · rw [run_convert_error env update w ((afterDownload env voice file w).emit (.ffmpegRun (engineCall name fileRes.Body)))
        message voice file fileRes none e hm hv hgf hget hc]
      simp [steps_emit, uploads_emit, replies_emit, stepOf, emit_getLast, afterDownload_steps,
        afterDownload_uploads, afterDownload_replies]
  · intro file fileRes cf e hgf hget hcs hae
    have h3 : (convertFile env fileRes.Body (afterDownload env voice file w)).1 = (some cf, none) := by
      rw [convertFile_result_congr env fileRes.Body _ w (afterDownload_fs env voice file w)]
      exact hcs
    obtain ⟨name, _, hc⟩ := convertFile_success env fileRes.Body (afterDownload env voice file w)
      (by rw [h3])
    have hcf : cf = (ReadCloser.mk (env.ffmpeg (engineCall name fileRes.Body)).1 none) := by
      rw [hc] at h3
      simp only [Prod.mk.injEq, Option.some.injEq, and_true] at h3
      exact h3.symm
    subst hcf
    obtain ⟨req, hw5⟩ := getAudioTranslation_readable_world env
      (ReadCloser.mk (env.ffmpeg (engineCall name fileRes.Body)).1 none)
      ((afterDownload env voice file w).emit (.ffmpegRun (engineCall name fileRes.Body))) rfl
    rcases hres : (getAudioTranslation env
      (ReadCloser.mk (env.ffmpeg (engineCall name fileRes.Body)).1 none)
      ((afterDownload env voice file w).emit (.ffmpegRun (engineCall name fileRes.Body)))).1
      with ⟨t, err⟩
    have herr : err = some e := by
      have := getAudioTranslation_result_congr env
        (ReadCloser.mk (env.ffmpeg (engineCall name fileRes.Body)).1 none)
        ((afterDownload env voice file w).emit (.ffmpegRun (engineCall name fileRes.Body))) w
      rw [hres] at this
      rw [← this] at hae
      exact hae
    subst herr
    rw [run_client_error env update w ((afterDownload env voice file w).emit (.ffmpegRun (engineCall name fileRes.Body)))
      (((afterDownload env voice file w).emit (.ffmpegRun (engineCall name fileRes.Body))).emit
        (.httpDo req)) message voice file fileRes _ t e hm hv hgf hget hc (Prod.ext hres hw5)]
    simp [steps_emit, replies_emit, stepOf, emit_getLast, afterDownload_steps,
      afterDownload_replies]
  · intro file fileRes cf t chat e hgf hget hcs hat hchat hsend
    have h3 : (convertFile env fileRes.Body (afterDownload env voice file w)).1 = (some cf, none) := by
      rw [convertFile_result_congr env fileRes.Body _ w (afterDownload_fs env voice file w)]
      exact hcs
    obtain ⟨name, _, hc⟩ := convertFile_success env fileRes.Body (afterDownload env voice file w)
      (by rw [h3])
    have hcf : cf = (ReadCloser.mk (env.ffmpeg (engineCall name fileRes.Body)).1 none) := by
      rw [hc] at h3
      simp only [Prod.mk.injEq, Option.some.injEq, and_true] at h3
      exact h3.symm
    subst hcf
    obtain ⟨req, hw5⟩ := getAudioTranslation_readable_world env
      (ReadCloser.mk (env.ffmpeg (engineCall name fileRes.Body)).1 none)
      ((afterDownload env voice file w).emit (.ffmpegRun (engineCall name fileRes.Body))) rfl
    have hres : (getAudioTranslation env
        (ReadCloser.mk (env.ffmpeg (engineCall name fileRes.Body)).1 none)
        ((afterDownload env voice file w).emit (.ffmpegRun (engineCall name fileRes.Body)))).1 = (t, none) := by
      rw [getAudioTranslation_result_congr env _ _ w]
      exact hat
    rw [run_reply env update w ((afterDownload env voice file w).emit (.ffmpegRun (engineCall name fileRes.Body)))
      (((afterDownload env voice file w).emit (.ffmpegRun (engineCall name fileRes.Body))).emit
        (.httpDo req)) message voice chat file fileRes _ t hm hv hchat hgf hget hc (Prod.ext hres hw5), hsend]
    simp [steps_emit, replies_emit, stepOf, stepOrder, emit_getLast, afterDownload_steps,
      afterDownload_replies]

/-- The mocked download delivering an empty body: the engine rejects it,
`convertFile` fails, the run ends in the fatal state with no upload and no
reply. -/
theorem pipeline_is_ordered_and_fail_fast_witness :
    (handleAudioUpdate (mockEnv 200 "" 200 "\x7b\"text\":\"bom dia\"\x7d") voiceUpdate
        emptyWorld).1 = Outcome.fatal ∧
      uploads (handleAudioUpdate (mockEnv 200 "" 200 "\x7b\"text\":\"bom dia\"\x7d") voiceUpdate
        emptyWorld).2.trace = uploads emptyWorld.trace ∧
      replies (handleAudioUpdate (mockEnv 200 "" 200 "\x7b\"text\":\"bom dia\"\x7d") voiceUpdate
        emptyWorld).2.trace = replies emptyWorld.trace ∧
      (steps (handleAudioUpdate (mockEnv 200 "" 200 "\x7b\"text\":\"bom dia\"\x7d") voiceUpdate
          emptyWorld).2.trace = steps emptyWorld.trace ++ [Step.resolve, Step.download] ∨
        steps (handleAudioUpdate (mockEnv 200 "" 200 "\x7b\"text\":\"bom dia\"\x7d") voiceUpdate
          emptyWorld).2.trace =
          steps emptyWorld.trace ++ [Step.resolve, Step.download, Step.transcode]) ∧
      (handleAudioUpdate (mockEnv 200 "" 200 "\x7b\"text\":\"bom dia\"\x7d") voiceUpdate
        emptyWorld).2.trace.getLast? =
        some (.logFatalf "convertFile" (.errorf "ffmpeg conversion failed: exit status 1")) :=
  (pipeline_is_ordered_and_fail_fast (mockEnv 200 "" 200 "\x7b\"text\":\"bom dia\"\x7d")
    voiceUpdate emptyWorld (Message.mk (some (Chat.mk 1)) (some (Voice.mk "F1"))) (Voice.mk "F1")
    rfl rfl).2.2.2.2.2.1 (File.mk "F1" "voice/file_1.oga")
    (Response.mk 200 (ReadCloser.mk "" none))
    (.errorf "ffmpeg conversion failed: exit status 1") rfl rfl (by decide)

end TelegramAudioToText
